import Mathlib

/-!
Verification development for the sales-analytics route
(`src/app/api/sales/analytics/route.ts`).

The route is embedded shallowly:

* Civil (proleptic Gregorian) calendar instants are embedded as a
  `DateTime` record of year/month/day/hour/minute/second/millisecond
  fields. The JavaScript `Date` epoch-milliseconds value (`getTime`) is
  recovered by `toMillis` (measured from 0001-01-01T00:00:00.000, an
  affine shift of the Unix epoch, which preserves all ordering and
  difference facts used by the route). Time zones and DST are not
  modelled: the calendar is uniform, as for UTC dates.
* The `date-fns` helpers used by the route (`startOfDay`, `startOfWeek`,
  `addMonths`, `eachDayOfInterval`, `format`, `isSameDay`, ...) are
  implemented with their documented calendar semantics.
* JavaScript floating-point numbers appear in the route only through
  sums, differences, products and divisions of stored amounts; sums and
  products of finite values are embedded as exact rationals, and the
  division sites (the only places where NaN/Infinity can arise) are
  embedded via `JSNum`, which models the IEEE special values NaN and
  ±Infinity explicitly.
* Fallible/external parts (auth, Prisma queries, HTTP) are outside the
  aggregation core and are not modelled; the core receives the fetched
  transaction lists as inputs.
-/

namespace Sales

/-- A civil calendar instant, the embedding of a JavaScript `Date`.
`month` ranges over 1..12 and `day` over 1..daysInMonth. -/
structure DateTime where
  year : Nat
  month : Nat
  day : Nat
  hour : Nat
  minute : Nat
  second : Nat
  ms : Nat
deriving DecidableEq

/-- Gregorian leap-year test. -/
def isLeap (y : Nat) : Bool :=
  y % 4 == 0 && (y % 100 != 0 || y % 400 == 0)

/-- 1 when `y` is a leap year, else 0. -/
def leapBit (y : Nat) : Nat := if isLeap y then 1 else 0

/-- Number of days in month `m` (1..12) of year `y`. -/
def daysInMonth (y m : Nat) : Nat :=
  if m = 2 then (if isLeap y then 29 else 28)
  else if m = 4 ∨ m = 6 ∨ m = 9 ∨ m = 11 then 30
  else 31

/-- Days of year `y` that precede the first day of month `m` (1..12). -/
def daysBeforeMonth (y m : Nat) : Nat :=
  match m with
  | 1 => 0
  | 2 => 31
  | 3 => 59 + leapBit y
  | 4 => 90 + leapBit y
  | 5 => 120 + leapBit y
  | 6 => 151 + leapBit y
  | 7 => 181 + leapBit y
  | 8 => 212 + leapBit y
  | 9 => 243 + leapBit y
  | 10 => 273 + leapBit y
  | 11 => 304 + leapBit y
  | 12 => 334 + leapBit y
  | _ => 0

/-- Number of leap years among 1..(y-1). -/
def leapsBefore (y : Nat) : Nat :=
  (y - 1) / 4 - (y - 1) / 100 + (y - 1) / 400

/-- Days strictly before January 1 of year `y` (counting from year 1). -/
def daysBeforeYear (y : Nat) : Nat :=
  365 * (y - 1) + leapsBefore y

/-- Absolute day index of the calendar day of `d` (0001-01-01 is day 0). -/
def dayNumber (d : DateTime) : Nat :=
  daysBeforeYear d.year + daysBeforeMonth d.year d.month + (d.day - 1)

/-- Milliseconds elapsed since midnight of `d`'s day. -/
def timeOfDayMs (d : DateTime) : Nat :=
  d.hour * 3600000 + d.minute * 60000 + d.second * 1000 + d.ms

/-- The embedding of JavaScript `Date.prototype.getTime`: milliseconds
since 0001-01-01T00:00:00.000. -/
def toMillis (d : DateTime) : Nat :=
  dayNumber d * 86400000 + timeOfDayMs d

/-- The record denotes an actual calendar instant. -/
abbrev Valid (d : DateTime) : Prop :=
  1 ≤ d.year ∧ 1 ≤ d.month ∧ d.month ≤ 12 ∧ 1 ≤ d.day ∧
  d.day ≤ daysInMonth d.year d.month ∧
  d.hour ≤ 23 ∧ d.minute ≤ 59 ∧ d.second ≤ 59 ∧ d.ms ≤ 999

/-! date-fns helpers used by the route, with their documented calendar
semantics. -/

/-- date-fns `startOfDay`. -/
def startOfDay (d : DateTime) : DateTime :=
  { d with hour := 0, minute := 0, second := 0, ms := 0 }

/-- date-fns `endOfDay`. -/
def endOfDay (d : DateTime) : DateTime :=
  { d with hour := 23, minute := 59, second := 59, ms := 999 }

/-- The calendar day after `d`'s day (time fields preserved). -/
def nextDay (d : DateTime) : DateTime :=
  if d.day < daysInMonth d.year d.month then { d with day := d.day + 1 }
  else if d.month < 12 then { d with month := d.month + 1, day := 1 }
  else { d with year := d.year + 1, month := 1, day := 1 }

/-- The calendar day before `d`'s day (time fields preserved). -/
def prevDay (d : DateTime) : DateTime :=
  if 1 < d.day then { d with day := d.day - 1 }
  else if 1 < d.month then
    { d with month := d.month - 1, day := daysInMonth d.year (d.month - 1) }
  else { d with year := d.year - 1, month := 12, day := 31 }

/-- date-fns `addDays` (calendar day stepping). -/
def addDays (d : DateTime) : Nat → DateTime
  | 0 => d
  | n + 1 => nextDay (addDays d n)

/-- date-fns `subDays`. -/
def subDays (d : DateTime) : Nat → DateTime
  | 0 => d
  | n + 1 => prevDay (subDays d n)

/-- Day of the week of `d` with the JavaScript convention 0 = Sunday.
0001-01-01 (absolute day 0) was a Monday in the proleptic Gregorian
calendar. -/
def dayOfWeek (d : DateTime) : Nat := (dayNumber d + 1) % 7

/-- date-fns `startOfWeek` with the default `weekStartsOn = 0` (Sunday). -/
def startOfWeek (d : DateTime) : DateTime :=
  startOfDay (subDays d (dayOfWeek d))

/-- date-fns `endOfWeek` with the default `weekStartsOn = 0`. -/
def endOfWeek (d : DateTime) : DateTime :=
  endOfDay (addDays d (6 - dayOfWeek d))

/-- date-fns `startOfMonth`. -/
def startOfMonth (d : DateTime) : DateTime :=
  { d with day := 1, hour := 0, minute := 0, second := 0, ms := 0 }

/-- date-fns `endOfMonth`. -/
def endOfMonth (d : DateTime) : DateTime :=
  { d with day := daysInMonth d.year d.month,
           hour := 23, minute := 59, second := 59, ms := 999 }

/-- date-fns `startOfYear`. -/
def startOfYear (d : DateTime) : DateTime :=
  { d with month := 1, day := 1, hour := 0, minute := 0, second := 0, ms := 0 }

/-- date-fns `endOfYear`. -/
def endOfYear (d : DateTime) : DateTime :=
  { d with month := 12, day := 31,
           hour := 23, minute := 59, second := 59, ms := 999 }

/-- Zero-based month counter: `12 * year + (month - 1)`. -/
def monthIndex (d : DateTime) : Nat := 12 * d.year + (d.month - 1)

/-- Move `d` to the month with index `idx`, clamping the day-of-month to
the target month's length. This is the common core of date-fns
`addMonths`/`subMonths`. -/
def setMonthIndex (d : DateTime) (idx : Nat) : DateTime :=
  { d with year := idx / 12, month := idx % 12 + 1,
           day := min d.day (daysInMonth (idx / 12) (idx % 12 + 1)) }

/-- date-fns `addMonths` (day-of-month clamped into the target month). -/
def addMonths (d : DateTime) (n : Nat) : DateTime :=
  setMonthIndex d (monthIndex d + n)

/-- date-fns `subMonths`. -/
def subMonths (d : DateTime) (n : Nat) : DateTime :=
  setMonthIndex d (monthIndex d - n)

/-- date-fns `subYears` (Feb 29 clamps to Feb 28 in a non-leap target). -/
def subYears (d : DateTime) (n : Nat) : DateTime :=
  { d with year := d.year - n,
           day := min d.day (daysInMonth (d.year - n) d.month) }

/-- date-fns `isSameDay`. -/
def isSameDay (a b : DateTime) : Bool :=
  a.year == b.year && a.month == b.month && a.day == b.day

/-- date-fns `isSameMonth`. -/
def isSameMonth (a b : DateTime) : Bool :=
  a.year == b.year && a.month == b.month

/-- JavaScript `date.setHours(h, 0, 0, 0)`. -/
def setHours (d : DateTime) (h : Nat) : DateTime :=
  { d with hour := h, minute := 0, second := 0, ms := 0 }

/-- date-fns `eachDayOfInterval`: the start of every calendar day from
`s`'s day to the last day start that is still `≤ e`. -/
def eachDayOfInterval (s e : DateTime) : List DateTime :=
  (List.range (dayNumber e + 1 - dayNumber s)).map
    (fun i => addDays (startOfDay s) i)

/-- date-fns `eachMonthOfInterval`: the start of every calendar month
from `s`'s month to the last month start that is still `≤ e`. -/
def eachMonthOfInterval (s e : DateTime) : List DateTime :=
  (List.range (monthIndex e + 1 - monthIndex s)).map
    (fun i => setMonthIndex (startOfMonth s) (monthIndex s + i))

/-- date-fns `format` pattern `MMM`. -/
def monthAbbrev (m : Nat) : String :=
  match m with
  | 1 => "Jan" | 2 => "Feb" | 3 => "Mar" | 4 => "Apr"
  | 5 => "May" | 6 => "Jun" | 7 => "Jul" | 8 => "Aug"
  | 9 => "Sep" | 10 => "Oct" | 11 => "Nov" | 12 => "Dec"
  | _ => ""

/-- date-fns `format` pattern `EEE` (0 = Sunday). -/
def weekdayAbbrev (w : Nat) : String :=
  match w with
  | 0 => "Sun" | 1 => "Mon" | 2 => "Tue" | 3 => "Wed"
  | 4 => "Thu" | 5 => "Fri" | 6 => "Sat"
  | _ => ""

/-- Two-digit day padding of `format`'s `dd`. -/
def pad2 (n : Nat) : String :=
  if n < 10 then "0" ++ toString n else toString n

/-! The JavaScript number model for the division sites. Finite values
are exact rationals; NaN and the two infinities are explicit. -/

/-- A JavaScript number: a finite (exact) value, an infinity, or NaN. -/
inductive JSNum where
  | num : ℚ → JSNum
  | posInf : JSNum
  | negInf : JSNum
  | nan : JSNum
deriving DecidableEq

namespace JSNum

/-- Finiteness predicate: the value is neither NaN nor ±Infinity. -/
def isFinite : JSNum → Bool
  | num _ => true
  | _ => false

/-- JavaScript subtraction on the model. -/
def jsSub : JSNum → JSNum → JSNum
  | nan, _ => nan
  | _, nan => nan
  | num a, num b => num (a - b)
  | posInf, posInf => nan
  | posInf, _ => posInf
  | negInf, negInf => nan
  | negInf, _ => negInf
  | num _, posInf => negInf
  | num _, negInf => posInf

/-- JavaScript multiplication on the model (the sign of zero is not
modelled; `0 * ±Infinity = NaN` as in IEEE). -/
def jsMul : JSNum → JSNum → JSNum
  | nan, _ => nan
  | _, nan => nan
  | num a, num b => num (a * b)
  | posInf, posInf => posInf
  | posInf, negInf => negInf
  | negInf, posInf => negInf
  | negInf, negInf => posInf
  | posInf, num b => if b = 0 then nan else if 0 < b then posInf else negInf
  | num a, posInf => if a = 0 then nan else if 0 < a then posInf else negInf
  | negInf, num b => if b = 0 then nan else if 0 < b then negInf else posInf
  | num a, negInf => if a = 0 then nan else if 0 < a then negInf else posInf

/-- JavaScript division on the model. Division of a nonzero finite
value by zero yields a signed infinity; `0 / 0` yields NaN. -/
def jsDiv : JSNum → JSNum → JSNum
  | nan, _ => nan
  | _, nan => nan
  | num a, num b =>
      if b = 0 then (if a = 0 then nan else if 0 < a then posInf else negInf)
      else num (a / b)
  | posInf, posInf => nan
  | posInf, negInf => nan
  | negInf, posInf => nan
  | negInf, negInf => nan
  | posInf, num b => if 0 ≤ b then posInf else negInf
  | negInf, num b => if 0 ≤ b then negInf else posInf
  | num _, posInf => num 0
  | num _, negInf => num 0

/-- JavaScript `>` comparison (false on NaN operands). -/
def jsGt : JSNum → JSNum → Bool
  | nan, _ => false
  | _, nan => false
  | num a, num b => a > b
  | posInf, posInf => false
  | posInf, _ => true
  | _, posInf => false
  | negInf, _ => false
  | num _, negInf => true

end JSNum

/-! The data model of the route (§3 of the spec): a transaction with an
embedded list of line items. Stored numeric amounts are finite. -/

/-- One line item of a transaction's embedded `items` list. A missing
or empty `category` is the JavaScript-falsy case. -/
structure SaleItem where
  productId : String
  productName : String
  category : Option String
  quantity : ℚ
  total : ℚ
deriving DecidableEq

/-- A transaction record as fetched from the store. -/
structure Transaction where
  totalAmount : ℚ
  createdAt : DateTime
  items : List SaleItem
deriving DecidableEq

/-- A half-open-by-inclusive instant pair. -/
structure TimeInterval where
  start : DateTime
  end_ : DateTime
deriving DecidableEq

/-- The window produced by `getDateRange`: current start/end plus the
comparison window. -/
structure DRange where
  start : DateTime
  end_ : DateTime
  previous : TimeInterval
deriving DecidableEq

/-- One trend data point (`{name, timestamp, value}` in the route). The
`timestamp` field holds epoch milliseconds in JavaScript; the embedding
stores the instant itself, `toMillis` recovering the number. -/
structure Bucket where
  name : String
  timestamp : DateTime
  value : ℚ
deriving DecidableEq

/-- The route's `getDateRange` helper (lines 27-76): named timeframe to
current window plus previous window; unknown timeframes fall to the
`Today` branch. -/
def getDateRange (timeframe : String) (now : DateTime) : DRange :=
  if timeframe = "Today" then
    { start := startOfDay now, end_ := endOfDay now,
      previous := { start := startOfDay (subDays now 1),
                    end_ := endOfDay (subDays now 1) } }
  else if timeframe = "Week" then
    { start := startOfWeek now, end_ := endOfWeek now,
      previous := { start := startOfWeek (subDays now 7),
                    end_ := endOfWeek (subDays now 7) } }
  else if timeframe = "Month" then
    { start := startOfMonth (subMonths now 11), end_ := endOfMonth now,
      previous := { start := startOfMonth (subMonths now 23),
                    end_ := endOfMonth (subMonths now 12) } }
  else if timeframe = "Year" then
    { start := startOfYear (subYears now 2), end_ := endOfYear now,
      previous := { start := startOfYear (subYears now 3),
                    end_ := endOfYear (subYears now 1) } }
  else
    { start := startOfDay now, end_ := endOfDay now,
      previous := { start := startOfDay (subDays now 1),
                    end_ := endOfDay (subDays now 1) } }

/-- The route's `Math.ceil((end - start) / (1000*60*60*24))` day count
for custom ranges, as an exact integer ceiling. -/
def daysDiffOf (r : DRange) : Int :=
  Int.fdiv ((toMillis r.end_ : Int) - (toMillis r.start : Int) + 86399999) 86400000

/-- The route's `generateTrendDataPoints` (lines 79-167). A falsy
timeframe (null or the empty string) selects the custom-range interval
logic; otherwise the named-timeframe switch runs, with unknown names
producing the empty list. -/
def generateTrendDataPoints (timeframe : Option String) (r : DRange)
    (now : DateTime) : List Bucket :=
  if timeframe.getD "" = "" then
    let daysDiff := daysDiffOf r
    if daysDiff ≤ 1 then
      (List.range 24).map (fun i =>
        { name := toString i ++ ":00", timestamp := setHours r.start i, value := 0 })
    else if daysDiff ≤ 31 then
      (eachDayOfInterval r.start r.end_).map (fun date =>
        { name := monthAbbrev date.month ++ " " ++ pad2 date.day,
          timestamp := date, value := 0 })
    else
      (eachMonthOfInterval r.start r.end_).map (fun date =>
        { name := monthAbbrev date.month ++ " " ++ toString date.year,
          timestamp := date, value := 0 })
  else
    let tf := timeframe.getD ""
    if tf = "Today" then
      (List.range 24).map (fun i =>
        { name := toString i ++ ":00", timestamp := setHours r.start i, value := 0 })
    else if tf = "Week" then
      (eachDayOfInterval r.start r.end_).map (fun date =>
        { name := weekdayAbbrev (dayOfWeek date), timestamp := date, value := 0 })
    else if tf = "Month" then
      (List.range 12).map (fun i =>
        let date := addMonths (subMonths (endOfMonth now) 11) i
        { name := monthAbbrev date.month, timestamp := date, value := 0 })
    else if tf = "Year" then
      (List.range 3).filterMap (fun i =>
        let y := r.start.year + i
        if y ≤ r.end_.year then
          some { name := toString y,
                 timestamp := { year := y, month := 1, day := 1,
                                hour := 0, minute := 0, second := 0, ms := 0 },
                 value := 0 }
        else none)
    else []

/-- The per-transaction bucket matching predicate of the fill loop
(lines 249-270), selected by timeframe or by the custom-range day
count. -/
def bucketMatch (timeframe : Option String) (r : DRange)
    (transDate pointDate : DateTime) : Bool :=
  if timeframe.getD "" = "" then
    let daysDiff := daysDiffOf r
    if daysDiff ≤ 1 then
      transDate.hour == pointDate.hour && isSameDay transDate pointDate
    else if daysDiff ≤ 31 then isSameDay transDate pointDate
    else isSameMonth transDate pointDate
  else
    let tf := timeframe.getD ""
    if tf = "Today" then transDate.hour == pointDate.hour
    else if tf = "Week" then isSameDay transDate pointDate
    else if tf = "Month" then isSameMonth transDate pointDate
    else transDate.year == pointDate.year

/-- One iteration of the fill loop (lines 242-277): add the transaction
amount to every bucket whose predicate matches its timestamp. -/
def applyTransaction (timeframe : Option String) (r : DRange)
    (points : List Bucket) (t : Transaction) : List Bucket :=
  points.map (fun point =>
    if bucketMatch timeframe r t.createdAt point.timestamp then
      { point with value := point.value + t.totalAmount }
    else point)

/-- The whole fill pass over the fetched transactions. -/
def fillBuckets (timeframe : Option String) (r : DRange)
    (points : List Bucket) (transactions : List Transaction) : List Bucket :=
  transactions.foldl (applyTransaction timeframe r) points

/-- The `salesTrend` projection (lines 279-282); `point.value || 0` is
the identity on the exact accumulated value. -/
def salesTrendOf (timeframe : Option String) (r : DRange)
    (transactions : List Transaction) (now : DateTime) : List (String × ℚ) :=
  (fillBuckets timeframe r (generateTrendDataPoints timeframe r now)
      transactions).map (fun point => (point.name, point.value))

/-! The KPI metrics (lines 217-236). -/

/-- `totalRevenue`: reduce of `totalAmount` over the fetched
transactions. -/
def totalRevenue (transactions : List Transaction) : ℚ :=
  transactions.foldl (fun sum t => sum + t.totalAmount) 0

/-- `totalOrders`: the number of fetched transactions. -/
def totalOrders (transactions : List Transaction) : Nat :=
  transactions.length

/-- `avgOrderValue` (line 219): guarded division. -/
def avgOrderValue (transactions : List Transaction) : JSNum :=
  if 0 < totalOrders transactions then
    JSNum.jsDiv (JSNum.num (totalRevenue transactions))
      (JSNum.num (totalOrders transactions))
  else JSNum.num 0

/-- `previousAvgValue` (line 224). -/
def previousAvgValue (previousTransactions : List Transaction) : JSNum :=
  if 0 < totalOrders previousTransactions then
    JSNum.jsDiv (JSNum.num (totalRevenue previousTransactions))
      (JSNum.num (totalOrders previousTransactions))
  else JSNum.num 0

/-- `revenueChange` (lines 228-230). -/
def revenueChange (transactions previousTransactions : List Transaction) : JSNum :=
  if 0 < totalRevenue previousTransactions then
    JSNum.jsMul
      (JSNum.jsDiv
        (JSNum.num (totalRevenue transactions - totalRevenue previousTransactions))
        (JSNum.num (totalRevenue previousTransactions)))
      (JSNum.num 100)
  else JSNum.num 0

/-- `ordersChange` (lines 231-233). -/
def ordersChange (transactions previousTransactions : List Transaction) : JSNum :=
  if 0 < totalOrders previousTransactions then
    JSNum.jsMul
      (JSNum.jsDiv
        (JSNum.num ((totalOrders transactions : ℚ) - (totalOrders previousTransactions : ℚ)))
        (JSNum.num (totalOrders previousTransactions)))
      (JSNum.num 100)
  else JSNum.num 0

/-- `avgValueChange` (lines 234-236), computed on the already-guarded
average values. -/
def avgValueChange (transactions previousTransactions : List Transaction) : JSNum :=
  if JSNum.jsGt (previousAvgValue previousTransactions) (JSNum.num 0) then
    JSNum.jsMul
      (JSNum.jsDiv
        (JSNum.jsSub (avgOrderValue transactions)
          (previousAvgValue previousTransactions))
        (previousAvgValue previousTransactions))
      (JSNum.num 100)
  else JSNum.num 0

/-- The `previousPeriodComparison` object of the response (lines
341-346). -/
structure Comparison where
  revenue : JSNum
  sales : JSNum
  avgOrder : JSNum
  orders : JSNum
deriving DecidableEq

/-- Assembly of `previousPeriodComparison`: the `sales` field is
populated with `ordersChange`, like `orders`. -/
def previousPeriodComparison (transactions previousTransactions : List Transaction) :
    Comparison :=
  { revenue := revenueChange transactions previousTransactions,
    sales := ordersChange transactions previousTransactions,
    avgOrder := avgValueChange transactions previousTransactions,
    orders := ordersChange transactions previousTransactions }

/-! The product and category aggregation (lines 286-334). The
JavaScript `Map` preserves insertion order; it is embedded as an
association list where `set` on a present key replaces in place and on
an absent key appends. -/

/-- Accumulated per-product record (`{name, quantity, revenue}`). -/
structure ProductAcc where
  name : String
  quantity : ℚ
  revenue : ℚ
deriving DecidableEq

/-- `Map.prototype.get` on the insertion-ordered association list. -/
def mapGet (m : List (String × ProductAcc)) (k : String) : Option ProductAcc :=
  (m.find? (fun p => p.1 == k)).map (fun p => p.2)

/-- `Map.prototype.set`: replace in place when the key is present,
append otherwise. -/
def mapSet (m : List (String × ProductAcc)) (k : String) (v : ProductAcc) :
    List (String × ProductAcc) :=
  if m.any (fun p => p.1 == k) then
    m.map (fun p => if p.1 == k then (k, v) else p)
  else m ++ [(k, v)]

/-- The per-item accumulation step of the `productSales` loop
(lines 289-300). -/
def productStep (m : List (String × ProductAcc)) (item : SaleItem) :
    List (String × ProductAcc) :=
  let currentSales := (mapGet m item.productId).getD
    { name := item.productName, quantity := 0, revenue := 0 }
  mapSet m item.productId
    { name := item.productName,
      quantity := currentSales.quantity + item.quantity,
      revenue := currentSales.revenue + item.total }

/-- The `productSales` map after scanning every transaction's items. -/
def productSales (transactions : List Transaction) : List (String × ProductAcc) :=
  transactions.foldl (fun m t => t.items.foldl productStep m) []

/-- One entry of the `topProducts` output. -/
structure TopProduct where
  id : String
  name : String
  revenue : ℚ
  quantity : ℚ
deriving DecidableEq

/-- The unsorted `Array.from(productSales.entries()).map(...)`
projection (lines 303-309). -/
def productEntries (transactions : List Transaction) : List TopProduct :=
  (productSales transactions).map (fun p =>
    { id := p.1, name := p.2.name, revenue := p.2.revenue, quantity := p.2.quantity })

/-- The stable descending sort by revenue (`sort((a, b) => b.revenue -
a.revenue)`, line 310; JavaScript `Array.prototype.sort` is stable). -/
def sortedProducts (transactions : List Transaction) : List TopProduct :=
  (productEntries transactions).mergeSort (fun a b => decide (b.revenue ≤ a.revenue))

/-- `topProducts`: the first five entries of the sorted projection
(line 311). -/
def topProducts (transactions : List Transaction) : List TopProduct :=
  (sortedProducts transactions).take 5

/-- All line items of the fetched transactions in scan order. -/
def allItems (transactions : List Transaction) : List SaleItem :=
  (transactions.map Transaction.items).flatten

/-- `item.category || 'Uncategorized'`: both a missing and an empty
category label are falsy. -/
def effectiveCategory (item : SaleItem) : String :=
  match item.category with
  | none => "Uncategorized"
  | some s => if s = "" then "Uncategorized" else s

/-- `Map.prototype.get` for the category map, defaulting to 0. -/
def catGet (m : List (String × ℚ)) (k : String) : ℚ :=
  ((m.find? (fun p => p.1 == k)).map (fun p => p.2)).getD 0

/-- `Map.prototype.set` for the category map. -/
def catSet (m : List (String × ℚ)) (k : String) (v : ℚ) : List (String × ℚ) :=
  if m.any (fun p => p.1 == k) then
    m.map (fun p => if p.1 == k then (k, v) else p)
  else m ++ [(k, v)]

/-- The per-item accumulation step of the `categoryRevenue` loop
(lines 316-327). -/
def categoryStep (m : List (String × ℚ)) (item : SaleItem) : List (String × ℚ) :=
  catSet m (effectiveCategory item) (catGet m (effectiveCategory item) + item.total)

/-- The `categoryRevenue` map after scanning every transaction's items. -/
def categoryRevenue (transactions : List Transaction) : List (String × ℚ) :=
  transactions.foldl (fun m t => t.items.foldl categoryStep m) []

/-- One entry of the `revenueByCategory` output; the percentage is the
unguarded JavaScript division `(revenue / totalRevenue) * 100`. -/
structure CategoryEntry where
  category : String
  revenue : ℚ
  percentage : JSNum
deriving DecidableEq

/-- The `revenueByCategory` projection (lines 329-334). -/
def revenueByCategory (transactions : List Transaction) : List CategoryEntry :=
  (categoryRevenue transactions).map (fun p =>
    { category := p.1, revenue := p.2,
      percentage := JSNum.jsMul
        (JSNum.jsDiv (JSNum.num p.2) (JSNum.num (totalRevenue transactions)))
        (JSNum.num 100) })

/-! The date-range resolution of the GET handler (lines 181-194). When
both explicit bounds are present they are used directly, with the
previous window computed arithmetically on epoch milliseconds;
otherwise `getDateRange (timeframe || 'Today')` runs. The two branches
are kept apart in a sum because the explicit branch works on raw
instants (query-string dates) while the named branch works on calendar
windows. -/

/-- An explicit instant pair in epoch milliseconds. -/
structure MsInterval where
  start : Int
  end_ : Int
deriving DecidableEq

/-- The explicit-range result: current bounds plus the derived previous
window. -/
structure MsRange where
  start : Int
  end_ : Int
  previous : MsInterval
deriving DecidableEq

/-- Result of the date-range resolution in the GET handler. -/
inductive Resolved where
  | explicitR : MsRange → Resolved
  | named : DRange → Resolved
deriving DecidableEq

/-- Lines 181-194 of the GET handler: explicit bounds take the first
branch, computing `previous.start = start - (end - start)` and
`previous.end = start`; otherwise the named resolver runs on
`timeframe || 'Today'`. -/
def resolveRange (timeframe : Option String) (startDate endDate : Option Int)
    (now : DateTime) : Resolved :=
  match startDate, endDate with
  | some s, some e =>
      Resolved.explicitR
        { start := s, end_ := e,
          previous := { start := s - (e - s), end_ := s } }
  | _, _ =>
      let tf := timeframe.getD ""
      Resolved.named (getDateRange (if tf = "" then "Today" else tf) now)

/-! Helper definitions used by the verification statements. -/

/-- Cumulative day count of the month with zero-based month counter
`idx` (year `idx / 12`, month `idx % 12 + 1`). -/
def mIdxDays (idx : Nat) : Nat :=
  daysBeforeYear (idx / 12) + daysBeforeMonth (idx / 12) (idx % 12 + 1)

/-- The buckets' epoch-millisecond timestamps are strictly increasing
in generation order. -/
def StrictIncreasingMs (points : List Bucket) : Prop :=
  (points.map (fun point => toMillis point.timestamp)).Pairwise (· < ·)

/-- No transaction timestamp can match two distinct buckets of the
sequence under the fill loop's predicate. -/
def MutuallyExclusive (timeframe : Option String) (r : DRange)
    (points : List Bucket) : Prop :=
  points.Pairwise (fun p q => ∀ t : DateTime,
    ¬(bucketMatch timeframe r t p.timestamp = true ∧
      bucketMatch timeframe r t q.timestamp = true))

/-- Sum of the bucket values of a trend-point sequence. -/
def sumValues (points : List Bucket) : ℚ :=
  (points.map Bucket.value).sum

/-- Accumulated quantity stored under key `k`, 0 when absent. -/
def qtyAt (m : List (String × ProductAcc)) (k : String) : ℚ :=
  match mapGet m k with
  | some v => v.quantity
  | none => 0

/-- Accumulated revenue stored under key `k`, 0 when absent. -/
def revAt (m : List (String × ProductAcc)) (k : String) : ℚ :=
  match mapGet m k with
  | some v => v.revenue
  | none => 0

/-! Concrete sample inputs used to instantiate the theorems. -/

/-- A fixed request instant: 2025-06-15T12:00 (a Sunday). -/
def sampleNow : DateTime := ⟨2025, 6, 15, 12, 0, 0, 0⟩

/-- The two transactions of the `Today` scenario: 09:15 for 100 and
09:45 for 50. -/
def todayScenario : List Transaction :=
  [⟨100, ⟨2025, 6, 15, 9, 15, 0, 0⟩, []⟩,
   ⟨50, ⟨2025, 6, 15, 9, 45, 0, 0⟩, []⟩]

/-- A transaction with one line item but zero `totalAmount`, so the
current window's total revenue is zero. -/
def zeroRevenueInput : List Transaction :=
  [⟨0, ⟨2025, 6, 15, 10, 0, 0, 0⟩, [⟨"p1", "Widget", some "Tools", 1, 5⟩]⟩]

/-- A single daily bucket used to instantiate the conservation law. -/
def singleDayPoints : List Bucket := [⟨"Sun", ⟨2025, 6, 15, 0, 0, 0, 0⟩, 0⟩]

/-- One transaction falling into `singleDayPoints`. -/
def singleDayTransactions : List Transaction := [⟨40, ⟨2025, 6, 15, 9, 15, 0, 0⟩, []⟩]

/-- Two transactions holding repeated and tied products: product A
appears twice (quantities 2 and 1, totals 40 and 20), products B and C
tie at revenue 10 with B inserted first. -/
def productScenario : List Transaction :=
  [⟨60, ⟨2025, 6, 15, 9, 0, 0, 0⟩,
     [⟨"A", "Alpha", some "Cat", 2, 40⟩, ⟨"B", "Beta", none, 1, 10⟩]⟩,
   ⟨20, ⟨2025, 6, 15, 10, 0, 0, 0⟩,
     [⟨"A", "Alpha", some "Cat", 1, 20⟩, ⟨"C", "Gamma", some "", 1, 10⟩]⟩]

/-- A custom window spanning the 10 calendar days 2025-06-01 to
2025-06-10. -/
def tenDayRange : DRange :=
  ⟨⟨2025, 6, 1, 0, 0, 0, 0⟩, ⟨2025, 6, 10, 23, 59, 59, 999⟩,
   ⟨⟨2025, 5, 22, 0, 0, 0, 0⟩, ⟨2025, 6, 1, 0, 0, 0, 0⟩⟩⟩

end Sales

namespace Sales

/-! Calendar arithmetic lemmas. -/

theorem daysInMonth_pos (y m : Nat) : 1 ≤ daysInMonth y m := by
  unfold daysInMonth
  split_ifs <;> omega

theorem daysInMonth_le (y m : Nat) : daysInMonth y m ≤ 31 := by
  unfold daysInMonth
  split_ifs <;> omega

theorem daysBeforeMonth_succ (y m : Nat) (h1 : 1 ≤ m) (h2 : m ≤ 11) :
    daysBeforeMonth y (m + 1) = daysBeforeMonth y m + daysInMonth y m := by
  interval_cases m <;> cases hb : isLeap y <;>
    simp [daysBeforeMonth, daysInMonth, leapBit, hb]

theorem leapsBefore_succ (y : Nat) (hy : 1 ≤ y) :
    leapsBefore (y + 1) = leapsBefore y + leapBit y := by
  obtain ⟨z, rfl⟩ : ∃ z, y = z + 1 := ⟨y - 1, by omega⟩
  have h4 := Nat.succ_div z 4
  have h100 := Nat.succ_div z 100
  have h400 := Nat.succ_div z 400
  have hiff : (isLeap (z + 1) = true) ↔
      ((z + 1) % 4 = 0 ∧ ((z + 1) % 100 ≠ 0 ∨ (z + 1) % 400 = 0)) := by
    unfold isLeap
    simp [Bool.and_eq_true, Bool.or_eq_true]
  unfold leapsBefore leapBit
  simp only [Nat.add_sub_cancel]
  rw [h4, h100, h400]
  by_cases hL : (z + 1) % 4 = 0 ∧ ((z + 1) % 100 ≠ 0 ∨ (z + 1) % 400 = 0)
  · rw [if_pos (hiff.mpr hL)]
    split_ifs with a b c <;> omega
  · rw [if_neg (fun hb => hL (hiff.mp hb))]
    split_ifs with a b c <;> omega

theorem daysBeforeYear_succ (y : Nat) (hy : 1 ≤ y) :
    daysBeforeYear (y + 1) = daysBeforeYear y + 365 + leapBit y := by
  unfold daysBeforeYear
  rw [leapsBefore_succ y hy]
  simp only [Nat.add_sub_cancel]
  omega

theorem daysBeforeYear_strict (a b : Nat) (ha : 1 ≤ a) (h : a < b) :
    daysBeforeYear a < daysBeforeYear b := by
  induction b with
  | zero => omega
  | succ k ih =>
    rcases Nat.lt_or_ge a k with h1 | h1
    · have hk : 1 ≤ k := by omega
      have := daysBeforeYear_succ k hk
      have := ih h1
      omega
    · have hak : a = k := by omega
      subst hak
      have := daysBeforeYear_succ a ha
      omega

theorem dayNumber_nextDay (d : DateTime) (h : Valid d) :
    dayNumber (nextDay d) = dayNumber d + 1 := by
  obtain ⟨hy, hm1, hm2, hd1, hd2, -⟩ := h
  unfold nextDay
  split_ifs with c1 c2
  · simp only [dayNumber]
    try dsimp only
    omega
  · have hmlt : d.month ≤ 11 := by omega
    have hrec := daysBeforeMonth_succ d.year d.month hm1 hmlt
    have hp := daysInMonth_pos d.year d.month
    simp only [dayNumber]
    try dsimp only
    omega
  · have hm : d.month = 12 := by omega
    have h31 : daysInMonth d.year 12 = 31 := by unfold daysInMonth; norm_num
    have hsucc := daysBeforeYear_succ d.year hy
    have hbm1 : daysBeforeMonth (d.year + 1) 1 = 0 := rfl
    have hbm12 : daysBeforeMonth d.year 12 = 334 + leapBit d.year := rfl
    rw [hm, h31] at hd2
    rw [hm, h31] at c1
    simp only [dayNumber, hm]
    try dsimp only
    omega

theorem valid_nextDay (d : DateTime) (h : Valid d) : Valid (nextDay d) := by
  obtain ⟨hy, hm1, hm2, hd1, hd2, ht1, ht2, ht3, ht4⟩ := h
  have hp1 := daysInMonth_pos d.year (d.month + 1)
  have hp2 := daysInMonth_pos (d.year + 1) 1
  unfold nextDay
  split_ifs with c1 c2 <;>
    refine ⟨?_, ?_, ?_, ?_, ?_, ?_, ?_, ?_, ?_⟩ <;> (try dsimp only) <;> omega

theorem nextDay_time (d : DateTime) :
    (nextDay d).hour = d.hour ∧ (nextDay d).minute = d.minute ∧
    (nextDay d).second = d.second ∧ (nextDay d).ms = d.ms := by
  unfold nextDay
  split_ifs <;> exact ⟨rfl, rfl, rfl, rfl⟩

theorem addDays_spec (d : DateTime) (n : Nat) (h : Valid d) :
    Valid (addDays d n) ∧ dayNumber (addDays d n) = dayNumber d + n ∧
    (addDays d n).hour = d.hour ∧ (addDays d n).minute = d.minute ∧
    (addDays d n).second = d.second ∧ (addDays d n).ms = d.ms := by
  induction n with
  | zero => exact ⟨h, rfl, rfl, rfl, rfl, rfl⟩
  | succ n ih =>
    obtain ⟨v, dn, hh, hmin, hs, hms⟩ := ih
    have heq : addDays d (n + 1) = nextDay (addDays d n) := rfl
    have ht := nextDay_time (addDays d n)
    refine ⟨?_, ?_, ?_, ?_, ?_, ?_⟩
    · rw [heq]; exact valid_nextDay _ v
    · rw [heq, dayNumber_nextDay _ v]; omega
    · rw [heq, ht.1, hh]
    · rw [heq, ht.2.1, hmin]
    · rw [heq, ht.2.2.1, hs]
    · rw [heq, ht.2.2.2, hms]

theorem prevDay_spec (d : DateTime) (h : Valid d) (hpos : 1 ≤ dayNumber d) :
    Valid (prevDay d) ∧ dayNumber (prevDay d) + 1 = dayNumber d ∧
    (prevDay d).hour = d.hour ∧ (prevDay d).minute = d.minute ∧
    (prevDay d).second = d.second ∧ (prevDay d).ms = d.ms := by
  obtain ⟨hy, hm1, hm2, hd1, hd2, ht1, ht2, ht3, ht4⟩ := h
  unfold prevDay
  split_ifs with c1 c2
  · refine ⟨?_, ?_, rfl, rfl, rfl, rfl⟩
    · refine ⟨?_, ?_, ?_, ?_, ?_, ?_, ?_, ?_, ?_⟩ <;> (try dsimp only) <;> omega
    · simp only [dayNumber]
      try dsimp only
      omega
  · have hm1' : 1 ≤ d.month - 1 := by omega
    have hm2' : d.month - 1 ≤ 11 := by omega
    have hrec := daysBeforeMonth_succ d.year (d.month - 1) hm1' hm2'
    have hmm : d.month - 1 + 1 = d.month := by omega
    rw [hmm] at hrec
    have hp := daysInMonth_pos d.year (d.month - 1)
    refine ⟨?_, ?_, rfl, rfl, rfl, rfl⟩
    · refine ⟨?_, ?_, ?_, ?_, ?_, ?_, ?_, ?_, ?_⟩ <;> (try dsimp only) <;> omega
    · simp only [dayNumber]
      try dsimp only
      omega
  · have hm : d.month = 1 := by omega
    have hdd : d.day = 1 := by omega
    have hy2 : 2 ≤ d.year := by
      by_contra hc
      have hy1 : d.year = 1 := by omega
      have hz : dayNumber d = 0 := by
        simp only [dayNumber, hy1, hm, hdd]
        rfl
      omega
    have hsucc := daysBeforeYear_succ (d.year - 1) (by omega)
    have hyy : d.year - 1 + 1 = d.year := by omega
    rw [hyy] at hsucc
    have h31 : daysInMonth (d.year - 1) 12 = 31 := by unfold daysInMonth; norm_num
    have hbm12 : daysBeforeMonth (d.year - 1) 12 = 334 + leapBit (d.year - 1) := rfl
    have hbm1 : daysBeforeMonth d.year 1 = 0 := rfl
    refine ⟨?_, ?_, rfl, rfl, rfl, rfl⟩
    · refine ⟨?_, ?_, ?_, ?_, ?_, ?_, ?_, ?_, ?_⟩ <;> (try dsimp only) <;> omega
    · simp only [dayNumber, hm, hdd]
      try dsimp only
      omega

theorem subDays_spec (d : DateTime) (n : Nat) (h : Valid d) (hn : n ≤ dayNumber d) :
    Valid (subDays d n) ∧ dayNumber (subDays d n) + n = dayNumber d ∧
    (subDays d n).hour = d.hour ∧ (subDays d n).minute = d.minute ∧
    (subDays d n).second = d.second ∧ (subDays d n).ms = d.ms := by
  induction n with
  | zero => exact ⟨h, rfl, rfl, rfl, rfl, rfl⟩
  | succ n ih =>
    obtain ⟨v, dn, hh, hmin, hs, hms⟩ := ih (by omega)
    have heq : subDays d (n + 1) = prevDay (subDays d n) := rfl
    obtain ⟨v', dn', hh', hmin', hs', hms'⟩ := prevDay_spec (subDays d n) v (by omega)
    refine ⟨?_, ?_, ?_, ?_, ?_, ?_⟩
    · rw [heq]; exact v'
    · rw [heq]; omega
    · rw [heq, hh', hh]
    · rw [heq, hmin', hmin]
    · rw [heq, hs', hs]
    · rw [heq, hms', hms]

theorem timeOfDayMs_lt (d : DateTime) (h : Valid d) : timeOfDayMs d < 86400000 := by
  obtain ⟨-, -, -, -, -, ht1, ht2, ht3, ht4⟩ := h
  unfold timeOfDayMs
  omega

theorem toMillis_lt_of_dayNumber_lt (a b : DateTime) (ha : Valid a)
    (h : dayNumber a < dayNumber b) : toMillis a < toMillis b := by
  have h1 := timeOfDayMs_lt a ha
  unfold toMillis
  omega

theorem mIdxDays_succ (idx : Nat) (h : 12 ≤ idx) :
    mIdxDays (idx + 1) = mIdxDays idx + daysInMonth (idx / 12) (idx % 12 + 1) := by
  rcases Nat.lt_or_ge (idx % 12) 11 with hr | hr
  · have h1 : (idx + 1) / 12 = idx / 12 := by omega
    have h2 : (idx + 1) % 12 = idx % 12 + 1 := by omega
    unfold mIdxDays
    rw [h1, h2, daysBeforeMonth_succ _ _ (by omega) (by omega)]
    omega
  · have hr11 : idx % 12 = 11 := by omega
    have h1 : (idx + 1) / 12 = idx / 12 + 1 := by omega
    have h2 : (idx + 1) % 12 = 0 := by omega
    unfold mIdxDays
    rw [h1, h2, hr11]
    have hq : 1 ≤ idx / 12 := by omega
    rw [daysBeforeYear_succ _ hq]
    have hbm1 : daysBeforeMonth (idx / 12 + 1) (0 + 1) = 0 := rfl
    have h31 : daysInMonth (idx / 12) (11 + 1) = 31 := by unfold daysInMonth; norm_num
    have h12 : daysBeforeMonth (idx / 12) (11 + 1) = 334 + leapBit (idx / 12) := rfl
    rw [hbm1, h31, h12]
    omega

theorem mIdxDays_mono (i j : Nat) (hi : 12 ≤ i) (hij : i < j) :
    mIdxDays i + daysInMonth (i / 12) (i % 12 + 1) ≤ mIdxDays j := by
  induction j with
  | zero => omega
  | succ k ih =>
    rcases Nat.lt_or_ge i k with hlt | hge
    · have hk := ih hlt
      have hs := mIdxDays_succ k (by omega)
      omega
    · have hik : k = i := by omega
      subst hik
      rw [mIdxDays_succ k hi]

theorem dayNumber_eq_mIdxDays (d : DateTime) (h : Valid d) :
    dayNumber d = mIdxDays (monthIndex d) + (d.day - 1) := by
  obtain ⟨hy, hm1, hm2, -⟩ := h
  unfold dayNumber mIdxDays monthIndex
  have h1 : (12 * d.year + (d.month - 1)) / 12 = d.year := by omega
  have h2 : (12 * d.year + (d.month - 1)) % 12 = d.month - 1 := by omega
  rw [h1, h2]
  have h3 : d.month - 1 + 1 = d.month := by omega
  rw [h3]

theorem toMillis_lt_of_monthIndex_lt (a b : DateTime) (ha : Valid a) (hb : Valid b)
    (h12 : 12 ≤ monthIndex a) (hab : monthIndex a < monthIndex b) :
    toMillis a < toMillis b := by
  apply toMillis_lt_of_dayNumber_lt a b ha
  have h1 := dayNumber_eq_mIdxDays a ha
  have h2 := dayNumber_eq_mIdxDays b hb
  have h3 := mIdxDays_mono (monthIndex a) (monthIndex b) h12 hab
  have h4 : a.day ≤ daysInMonth (monthIndex a / 12) (monthIndex a % 12 + 1) := by
    obtain ⟨hy, hm1, hm2, hd1, hd2, -⟩ := ha
    have e1 : monthIndex a / 12 = a.year := by unfold monthIndex; omega
    have e2 : monthIndex a % 12 + 1 = a.month := by unfold monthIndex; omega
    rw [e1, e2]
    exact hd2
  omega

theorem monthIndex_setMonthIndex (d : DateTime) (idx : Nat) :
    monthIndex (setMonthIndex d idx) = idx := by
  unfold monthIndex setMonthIndex
  try dsimp only
  omega

theorem valid_setMonthIndex (d : DateTime) (idx : Nat) (h : Valid d) (h12 : 12 ≤ idx) :
    Valid (setMonthIndex d idx) := by
  obtain ⟨hy, hm1, hm2, hd1, hd2, ht1, ht2, ht3, ht4⟩ := h
  have hp := daysInMonth_pos (idx / 12) (idx % 12 + 1)
  unfold setMonthIndex
  refine ⟨?_, ?_, ?_, ?_, ?_, ?_, ?_, ?_, ?_⟩ <;> (try dsimp only) <;> omega

end Sales

namespace Sales

/-! Finiteness helpers for the JSNum division sites. -/

theorem jsDiv_num_num (a b : ℚ) (hb : b ≠ 0) :
    JSNum.jsDiv (JSNum.num a) (JSNum.num b) = JSNum.num (a / b) := by
  have h : JSNum.jsDiv (JSNum.num a) (JSNum.num b) =
      if b = 0 then
        (if a = 0 then JSNum.nan else if 0 < a then JSNum.posInf else JSNum.negInf)
      else JSNum.num (a / b) := rfl
  rw [h, if_neg hb]

theorem jsSub_num_num (a b : ℚ) :
    JSNum.jsSub (JSNum.num a) (JSNum.num b) = JSNum.num (a - b) := rfl

theorem jsMul_num_num (a b : ℚ) :
    JSNum.jsMul (JSNum.num a) (JSNum.num b) = JSNum.num (a * b) := rfl

theorem avgOrderValue_eq_num (ts : List Transaction) :
    ∃ q : ℚ, avgOrderValue ts = JSNum.num q := by
  unfold avgOrderValue
  split_ifs with h
  · refine ⟨totalRevenue ts / (totalOrders ts : ℚ), ?_⟩
    apply jsDiv_num_num
    have : (0 : ℚ) < (totalOrders ts : ℚ) := by exact_mod_cast h
    exact ne_of_gt this
  · exact ⟨0, rfl⟩

theorem previousAvgValue_eq_num (ps : List Transaction) :
    ∃ q : ℚ, previousAvgValue ps = JSNum.num q := by
  unfold previousAvgValue
  split_ifs with h
  · refine ⟨totalRevenue ps / (totalOrders ps : ℚ), ?_⟩
    apply jsDiv_num_num
    have : (0 : ℚ) < (totalOrders ps : ℚ) := by exact_mod_cast h
    exact ne_of_gt this
  · exact ⟨0, rfl⟩

/-- C3: `avgOrderValue` and the three period-over-period change fields
are always finite (never NaN or ±Infinity); `avgOrderValue` is 0 when
there are no orders, and each percentage change is 0 when the
corresponding previous-period value is 0. -/
theorem c3_metrics_finite (ts ps : List Transaction) :
    (avgOrderValue ts).isFinite = true ∧
    (revenueChange ts ps).isFinite = true ∧
    (ordersChange ts ps).isFinite = true ∧
    (avgValueChange ts ps).isFinite = true ∧
    (totalOrders ts = 0 → avgOrderValue ts = JSNum.num 0) ∧
    (totalRevenue ps = 0 → revenueChange ts ps = JSNum.num 0) ∧
    (totalOrders ps = 0 → ordersChange ts ps = JSNum.num 0) ∧
    (previousAvgValue ps = JSNum.num 0 → avgValueChange ts ps = JSNum.num 0) := by
  refine ⟨?_, ?_, ?_, ?_, ?_, ?_, ?_, ?_⟩
  · obtain ⟨q, hq⟩ := avgOrderValue_eq_num ts
    rw [hq]
    rfl
  · unfold revenueChange
    split_ifs with h
    · rw [jsDiv_num_num _ _ (ne_of_gt h), jsMul_num_num]
      rfl
    · rfl
  · unfold ordersChange
    split_ifs with h
    · have hne : ((totalOrders ps : ℚ)) ≠ 0 := by
        have : (0 : ℚ) < (totalOrders ps : ℚ) := by exact_mod_cast h
        exact ne_of_gt this
      rw [jsDiv_num_num _ _ hne, jsMul_num_num]
      rfl
    · rfl
  · unfold avgValueChange
    split_ifs with h
    · obtain ⟨qa, hqa⟩ := avgOrderValue_eq_num ts
      obtain ⟨qp, hqp⟩ := previousAvgValue_eq_num ps
      rw [hqp] at h
      have hqp0 : 0 < qp := by
        have := of_decide_eq_true (by simpa [JSNum.jsGt] using h)
        exact this
      rw [hqa, hqp, jsSub_num_num, jsDiv_num_num _ _ (ne_of_gt hqp0), jsMul_num_num]
      rfl
    · rfl
  · intro h
    unfold avgOrderValue
    rw [h]
    simp
  · intro h
    unfold revenueChange
    rw [h]
    simp
  · intro h
    unfold ordersChange
    rw [h]
    simp
  · intro h
    unfold avgValueChange
    rw [h]
    simp [JSNum.jsGt]

/-- Witness for C3 at the empty current and previous windows: all four
zero-guard branches fire and the average is finite. -/
theorem c3_metrics_finite_witness :
    avgOrderValue [] = JSNum.num 0 ∧
    revenueChange [] [] = JSNum.num 0 ∧
    ordersChange [] [] = JSNum.num 0 ∧
    avgValueChange [] [] = JSNum.num 0 ∧
    (avgOrderValue []).isFinite = true :=
  ⟨(c3_metrics_finite [] []).2.2.2.2.1 rfl,
   (c3_metrics_finite [] []).2.2.2.2.2.1 rfl,
   (c3_metrics_finite [] []).2.2.2.2.2.2.1 rfl,
   (c3_metrics_finite [] []).2.2.2.2.2.2.2 rfl,
   (c3_metrics_finite [] []).1⟩

unseal Rat.mul Rat.inv Rat.add Rat.sub in
/-- C4: on an input with one line item whose window has zero total
revenue, the category percentage `(revenue / totalRevenue) * 100` is
non-finite (here +Infinity): the division is not guarded. -/
theorem c4_category_percentage_unguarded :
    totalRevenue zeroRevenueInput = 0 ∧
    (allItems zeroRevenueInput).length = 1 ∧
    revenueByCategory zeroRevenueInput =
      [{ category := "Tools", revenue := 5, percentage := JSNum.posInf }] ∧
    ((revenueByCategory zeroRevenueInput).map
      (fun e => e.percentage.isFinite)) = [false] := by
  decide

/-- C6: when both explicit bounds are given they take precedence over
any timeframe, and the previous window is the same-duration interval
immediately before the explicit start. -/
theorem c6_explicit_range_precedence (tf : Option String) (s e : Int) (now : DateTime) :
    resolveRange tf (some s) (some e) now =
      Resolved.explicitR
        { start := s, end_ := e,
          previous := { start := s - (e - s), end_ := s } } ∧
    resolveRange tf (some s) (some e) now = resolveRange none (some s) (some e) now :=
  ⟨rfl, rfl⟩

unseal Rat.mul Rat.inv Rat.add Rat.sub in
/-- C7: with timeframe `Today` and transactions at 09:15 ($100) and
09:45 ($50), the bucket named `9:00` accumulates 150, and the KPIs are
`totalRevenue` 150, `totalOrders` 2, `avgOrderValue` 75. -/
theorem c7_today_scenario :
    ((salesTrendOf (some "Today") (getDateRange "Today" sampleNow) todayScenario
        sampleNow).find? (fun p => p.1 == "9:00")) = some ("9:00", 150) ∧
    totalRevenue todayScenario = 150 ∧
    totalOrders todayScenario = 2 ∧
    avgOrderValue todayScenario = JSNum.num 75 := by
  decide

/-- C10: the `sales` and `orders` fields of `previousPeriodComparison`
are the same value - both carry the orders percentage change; no
separate sales-change metric exists. -/
theorem c10_sales_equals_orders (ts ps : List Transaction) :
    (previousPeriodComparison ts ps).sales = (previousPeriodComparison ts ps).orders ∧
    (previousPeriodComparison ts ps).sales = ordersChange ts ps :=
  ⟨rfl, rfl⟩

end Sales

namespace Sales

/-! The bucket-fill conservation law (C2). -/

theorem sumValues_applyTransaction (tf : Option String) (r : DRange)
    (points : List Bucket) (t : Transaction) :
    sumValues (applyTransaction tf r points t) =
      sumValues points + t.totalAmount *
        (points.countP (fun b => bucketMatch tf r t.createdAt b.timestamp) : ℚ) := by
  induction points with
  | nil => simp [sumValues, applyTransaction]
  | cons b bs ih =>
    by_cases hm : bucketMatch tf r t.createdAt b.timestamp = true
    · simp only [applyTransaction, sumValues, List.map_cons, List.sum_cons,
        List.countP_cons, hm, if_true] at *
      rw [ih]
      push_cast
      ring
    · simp only [applyTransaction, sumValues, List.map_cons, List.sum_cons,
        List.countP_cons, hm, if_false] at *
      rw [ih]
      push_cast
      ring

theorem applyTransaction_timestamps (tf : Option String) (r : DRange)
    (points : List Bucket) (t : Transaction) :
    (applyTransaction tf r points t).map Bucket.timestamp =
      points.map Bucket.timestamp := by
  unfold applyTransaction
  rw [List.map_map]
  apply List.map_congr_left
  intro b hb
  by_cases hm : bucketMatch tf r t.createdAt b.timestamp = true <;>
    simp [Function.comp, hm]

theorem countP_applyTransaction (tf : Option String) (r : DRange)
    (points : List Bucket) (t : Transaction) (p : DateTime → Bool) :
    (applyTransaction tf r points t).countP (fun b => p b.timestamp) =
      points.countP (fun b => p b.timestamp) := by
  have h1 : (applyTransaction tf r points t).countP (fun b => p b.timestamp) =
      ((applyTransaction tf r points t).map Bucket.timestamp).countP p := by
    rw [List.countP_map]
    rfl
  rw [h1, applyTransaction_timestamps, List.countP_map]
  rfl

theorem sumValues_fillBuckets (tf : Option String) (r : DRange)
    (ts : List Transaction) (points : List Bucket) :
    sumValues (fillBuckets tf r points ts) =
      sumValues points +
        (ts.map (fun t => t.totalAmount *
          (points.countP (fun b => bucketMatch tf r t.createdAt b.timestamp) : ℚ))).sum := by
  induction ts generalizing points with
  | nil => simp [fillBuckets]
  | cons t ts ih =>
    have hstep : fillBuckets tf r points (t :: ts) =
        fillBuckets tf r (applyTransaction tf r points t) ts := rfl
    rw [hstep, ih]
    rw [sumValues_applyTransaction]
    have hc : ∀ t' : Transaction,
        (applyTransaction tf r points t).countP
          (fun b => bucketMatch tf r t'.createdAt b.timestamp) =
        points.countP (fun b => bucketMatch tf r t'.createdAt b.timestamp) :=
      fun t' => countP_applyTransaction tf r points t _
    simp only [hc, List.map_cons, List.sum_cons]
    ring

theorem foldl_add_totalAmount (ts : List Transaction) (a : ℚ) :
    ts.foldl (fun sum t => sum + t.totalAmount) a =
      a + (ts.map (fun t => t.totalAmount)).sum := by
  induction ts generalizing a with
  | nil => simp
  | cons t ts ih =>
    simp only [List.foldl_cons, List.map_cons, List.sum_cons, ih]
    ring

theorem totalRevenue_eq_sum (ts : List Transaction) :
    totalRevenue ts = (ts.map (fun t => t.totalAmount)).sum := by
  unfold totalRevenue
  rw [foldl_add_totalAmount]
  ring

/-- C2: when every bucket starts at 0 and every transaction's timestamp
matches exactly one bucket under the fill predicate, the sum of the
bucket values after the aggregation pass equals the sum of
`totalAmount` over the current-window transactions. -/
theorem c2_bucket_sum_conservation (tf : Option String) (r : DRange)
    (points : List Bucket) (ts : List Transaction)
    (hz : ∀ b ∈ points, b.value = 0)
    (h1 : ∀ t ∈ ts,
      points.countP (fun b => bucketMatch tf r t.createdAt b.timestamp) = 1) :
    sumValues (fillBuckets tf r points ts) = totalRevenue ts := by
  rw [sumValues_fillBuckets]
  have hz' : sumValues points = 0 := by
    apply List.sum_eq_zero
    intro x hx
    obtain ⟨b, hb, rfl⟩ := List.mem_map.mp hx
    exact hz b hb
  rw [hz', totalRevenue_eq_sum]
  have hmap : ts.map (fun t => t.totalAmount *
      (points.countP (fun b => bucketMatch tf r t.createdAt b.timestamp) : ℚ)) =
      ts.map (fun t => t.totalAmount) := by
    apply List.map_congr_left
    intro t ht
    rw [h1 t ht]
    push_cast
    ring
  rw [hmap]
  ring

unseal Rat.mul Rat.inv Rat.add Rat.sub in
/-- Witness for C2: one daily bucket, one matching transaction; the
bucket sum equals the transaction total. -/
theorem c2_bucket_sum_conservation_witness :
    sumValues (fillBuckets (some "Week") (getDateRange "Week" sampleNow)
      singleDayPoints singleDayTransactions) = totalRevenue singleDayTransactions :=
  c2_bucket_sum_conservation (some "Week") (getDateRange "Week" sampleNow)
    singleDayPoints singleDayTransactions (by decide) (by decide)

end Sales

namespace Sales

/-! Product-map lemmas (C5): the insertion-ordered association list
behaves like the JavaScript `Map`. -/

theorem find?_key_cons (q : String × ProductAcc) (l : List (String × ProductAcc))
    (k : String) :
    (q :: l).find? (fun p => p.1 == k) =
      if q.1 == k then some q else l.find? (fun p => p.1 == k) := by
  by_cases h : (q.1 == k) = true
  · rw [if_pos h]
    exact List.find?_cons_of_pos _
      (show (fun p : String × ProductAcc => p.1 == k) q = true from h)
  · rw [if_neg h]
    exact List.find?_cons_of_neg _
      (show ¬(fun p : String × ProductAcc => p.1 == k) q = true from h)

theorem find?_mapSet_replace (m : List (String × ProductAcc)) (k : String)
    (v : ProductAcc) (ha : m.any (fun p => p.1 == k) = true) :
    ((m.map (fun p => if p.1 == k then (k, v) else p)).find? (fun p => p.1 == k)) =
      some (k, v) := by
  induction m with
  | nil => simp at ha
  | cons p m ih =>
    rw [List.map_cons]
    by_cases hp : (p.1 == k) = true
    · rw [if_pos hp, find?_key_cons, if_pos (beq_self_eq_true k)]
    · have hpf : (p.1 == k) = false := by
        cases hx : (p.1 == k)
        · rfl
        · exact absurd hx hp
      have hm' : m.any (fun p => p.1 == k) = true := by
        simpa [List.any_cons, hpf] using ha
      rw [if_neg hp, find?_key_cons, if_neg hp]
      exact ih hm'

theorem mapGet_mapSet_self (m : List (String × ProductAcc)) (k : String)
    (v : ProductAcc) : mapGet (mapSet m k v) k = some v := by
  unfold mapGet mapSet
  by_cases ha : m.any (fun p => p.1 == k) = true
  · rw [if_pos ha, find?_mapSet_replace m k v ha]
    rfl
  · rw [if_neg ha, List.find?_append]
    have hn : m.find? (fun p => p.1 == k) = none := by
      rw [List.find?_eq_none]
      intro x hx hxk
      exact ha (List.any_eq_true.mpr ⟨x, hx, hxk⟩)
    rw [hn, find?_key_cons, if_pos (beq_self_eq_true k)]
    rfl

theorem mapGet_mapSet_ne (m : List (String × ProductAcc)) (k k' : String)
    (v : ProductAcc) (hkk : k' ≠ k) :
    mapGet (mapSet m k v) k' = mapGet m k' := by
  have hkb : (k == k') = false := by
    simp only [beq_eq_false_iff_ne, ne_eq]
    exact fun h => hkk h.symm
  unfold mapGet mapSet
  by_cases ha : m.any (fun p => p.1 == k) = true
  · rw [if_pos ha]
    have he : (m.map (fun p => if p.1 == k then (k, v) else p)).find?
        (fun p => p.1 == k') = m.find? (fun p => p.1 == k') := by
      clear ha
      induction m with
      | nil => rfl
      | cons p m ih =>
        rw [List.map_cons]
        by_cases hp : (p.1 == k) = true
        · have hpk : p.1 = k := eq_of_beq hp
          have h2 : (p.1 == k') = false := by rw [hpk]; exact hkb
          rw [if_pos hp, find?_key_cons, find?_key_cons]
          rw [show ((k, v).1 == k') = (k == k') from rfl, hkb, h2]
          rw [if_neg Bool.false_ne_true, if_neg Bool.false_ne_true]
          exact ih
        · rw [if_neg hp, find?_key_cons, find?_key_cons]
          by_cases hq : (p.1 == k') = true
          · rw [if_pos hq, if_pos hq]
          · rw [if_neg hq, if_neg hq]
            exact ih
    rw [he]
  · rw [if_neg ha, List.find?_append]
    have h1 : ([(k, v)].find? (fun p => p.1 == k')) = none := by
      rw [find?_key_cons]
      rw [show ((k, v).1 == k') = (k == k') from rfl, hkb]
      rw [if_neg Bool.false_ne_true]
      rfl
    rw [h1, Option.or_none]

theorem qtyAt_productStep (m : List (String × ProductAcc)) (item : SaleItem)
    (k : String) :
    qtyAt (productStep m item) k =
      qtyAt m k + (if item.productId = k then item.quantity else 0) := by
  by_cases hk : item.productId = k
  · subst hk
    unfold productStep qtyAt
    rw [mapGet_mapSet_self]
    cases hg : mapGet m item.productId with
    | none => simp [hg]
    | some v => simp [hg]
  · unfold productStep qtyAt
    rw [mapGet_mapSet_ne _ _ _ _ (Ne.symm hk)]
    simp [hk]

theorem revAt_productStep (m : List (String × ProductAcc)) (item : SaleItem)
    (k : String) :
    revAt (productStep m item) k =
      revAt m k + (if item.productId = k then item.total else 0) := by
  by_cases hk : item.productId = k
  · subst hk
    unfold productStep revAt
    rw [mapGet_mapSet_self]
    cases hg : mapGet m item.productId with
    | none => simp [hg]
    | some v => simp [hg]
  · unfold productStep revAt
    rw [mapGet_mapSet_ne _ _ _ _ (Ne.symm hk)]
    simp [hk]

theorem qtyAt_foldl (items : List SaleItem) (m : List (String × ProductAcc))
    (k : String) :
    qtyAt (items.foldl productStep m) k =
      qtyAt m k +
        ((items.filter (fun it => it.productId == k)).map SaleItem.quantity).sum := by
  induction items generalizing m with
  | nil => simp
  | cons it items ih =>
    simp only [List.foldl_cons]
    rw [ih, qtyAt_productStep]
    by_cases hk : it.productId = k
    · simp only [List.filter_cons, hk, if_pos rfl, beq_self_eq_true, if_true,
        List.map_cons, List.sum_cons]
      ring
    · have hkb : (it.productId == k) = false := by
        simp only [beq_eq_false_iff_ne, ne_eq]
        exact hk
      simp only [List.filter_cons, hkb, hk, if_false, Bool.false_eq_true]
      ring

theorem revAt_foldl (items : List SaleItem) (m : List (String × ProductAcc))
    (k : String) :
    revAt (items.foldl productStep m) k =
      revAt m k +
        ((items.filter (fun it => it.productId == k)).map SaleItem.total).sum := by
  induction items generalizing m with
  | nil => simp
  | cons it items ih =>
    simp only [List.foldl_cons]
    rw [ih, revAt_productStep]
    by_cases hk : it.productId = k
    · simp only [List.filter_cons, hk, if_pos rfl, beq_self_eq_true, if_true,
        List.map_cons, List.sum_cons]
      ring
    · have hkb : (it.productId == k) = false := by
        simp only [beq_eq_false_iff_ne, ne_eq]
        exact hk
      simp only [List.filter_cons, hkb, hk, if_false, Bool.false_eq_true]
      ring

theorem foldl_items_flatten (ts : List Transaction) (m : List (String × ProductAcc)) :
    ts.foldl (fun m t => t.items.foldl productStep m) m =
      ((ts.map Transaction.items).flatten).foldl productStep m := by
  induction ts generalizing m with
  | nil => rfl
  | cons t ts ih =>
    simp only [List.foldl_cons, List.map_cons, List.flatten_cons, List.foldl_append]
    exact ih _

theorem productSales_eq_flat (ts : List Transaction) :
    productSales ts = (allItems ts).foldl productStep [] := by
  unfold productSales allItems
  exact foldl_items_flatten ts []

theorem keys_mapSet_nodup (m : List (String × ProductAcc)) (k : String)
    (v : ProductAcc) (h : (m.map Prod.fst).Nodup) :
    ((mapSet m k v).map Prod.fst).Nodup := by
  unfold mapSet
  by_cases ha : m.any (fun p => p.1 == k) = true
  · rw [if_pos ha]
    have he : (m.map (fun p => if p.1 == k then (k, v) else p)).map Prod.fst =
        m.map Prod.fst := by
      rw [List.map_map]
      apply List.map_congr_left
      intro p hp
      by_cases hq : (p.1 == k) = true
      · simp only [Function.comp, hq, if_true]
        exact (eq_of_beq hq).symm
      · simp [Function.comp, hq]
    rw [he]
    exact h
  · rw [if_neg ha, List.map_append]
    rw [List.nodup_append]
    refine ⟨h, by simp, ?_⟩
    intro a haa hak
    simp only [List.map_cons, List.map_nil, List.mem_singleton] at hak
    obtain ⟨p, hp, hpa⟩ := List.mem_map.mp haa
    apply ha
    exact List.any_eq_true.mpr ⟨p, hp, by rw [hpa, hak]; exact beq_self_eq_true k⟩

theorem productSales_keys_nodup (ts : List Transaction) :
    ((productSales ts).map Prod.fst).Nodup := by
  rw [productSales_eq_flat]
  have aux : ∀ (items : List SaleItem) (m : List (String × ProductAcc)),
      (m.map Prod.fst).Nodup → ((items.foldl productStep m).map Prod.fst).Nodup := by
    intro items
    induction items with
    | nil => exact fun m h => h
    | cons it items ih =>
      intro m h
      refine ih _ ?_
      unfold productStep
      exact keys_mapSet_nodup _ _ _ h
  exact aux _ [] (by simp)

theorem mapGet_of_mem (m : List (String × ProductAcc)) (k : String)
    (v : ProductAcc) (h : (k, v) ∈ m) (hn : (m.map Prod.fst).Nodup) :
    mapGet m k = some v := by
  induction m with
  | nil => cases h
  | cons p m ih =>
    simp only [List.map_cons, List.nodup_cons] at hn
    rcases List.mem_cons.mp h with he | hm
    · rw [← he]
      unfold mapGet
      rw [find?_key_cons, if_pos (beq_self_eq_true k)]
      rfl
    · have hk : (p.1 == k) = false := by
        simp only [beq_eq_false_iff_ne, ne_eq]
        intro hpk
        apply hn.1
        refine List.mem_map.mpr ⟨(k, v), hm, ?_⟩
        rw [hpk]
      unfold mapGet at *
      rw [find?_key_cons, hk, if_neg Bool.false_ne_true]
      exact ih hm hn.2

end Sales

namespace Sales

/-! Sorting facts for `topProducts` (C5). -/

theorem revenueLe_trans : ∀ (a b c : TopProduct),
    (fun a b => decide (b.revenue ≤ a.revenue)) a b →
    (fun a b => decide (b.revenue ≤ a.revenue)) b c →
    (fun a b => decide (b.revenue ≤ a.revenue)) a c := by
  intro a b c hab hbc
  simp only [decide_eq_true_eq] at *
  exact le_trans hbc hab

theorem revenueLe_total : ∀ (a b : TopProduct),
    ((fun a b => decide (b.revenue ≤ a.revenue)) a b ||
     (fun a b => decide (b.revenue ≤ a.revenue)) b a) = true := by
  intro a b
  simp only [Bool.or_eq_true, decide_eq_true_eq]
  exact le_total b.revenue a.revenue

theorem sortedProducts_pairwise (ts : List Transaction) :
    (sortedProducts ts).Pairwise (fun a b => b.revenue ≤ a.revenue) := by
  unfold sortedProducts
  have h := List.sorted_mergeSort revenueLe_trans revenueLe_total (productEntries ts)
  exact h.imp (fun hab => of_decide_eq_true hab)

theorem sortedProducts_stable (ts : List Transaction) (rq : ℚ) :
    (sortedProducts ts).filter (fun p => p.revenue == rq) =
      (productEntries ts).filter (fun p => p.revenue == rq) := by
  have hpair : ((productEntries ts).filter (fun p => p.revenue == rq)).Pairwise
      (fun a b => (fun a b => decide (b.revenue ≤ a.revenue)) a b = true) := by
    apply List.pairwise_of_forall_mem_list
    intro a ha b hb
    have ha' : a.revenue = rq := by
      have := (List.mem_filter.mp ha).2
      exact eq_of_beq this
    have hb' : b.revenue = rq := by
      have := (List.mem_filter.mp hb).2
      exact eq_of_beq this
    simp only [decide_eq_true_eq]
    rw [ha', hb']
  have hsub : List.Sublist ((productEntries ts).filter (fun p => p.revenue == rq))
      (sortedProducts ts) :=
    List.sublist_mergeSort revenueLe_trans revenueLe_total hpair
      (List.filter_sublist _)
  have hsub2 : List.Sublist ((productEntries ts).filter (fun p => p.revenue == rq))
      ((sortedProducts ts).filter (fun p => p.revenue == rq)) := by
    have h := hsub.filter (fun p => p.revenue == rq)
    have hff : (fun a : TopProduct => (a.revenue == rq) && (a.revenue == rq)) =
        (fun a : TopProduct => a.revenue == rq) := by
      funext a
      rw [Bool.and_self]
    rwa [List.filter_filter, hff] at h
  have hlen : ((sortedProducts ts).filter (fun p => p.revenue == rq)).length =
      ((productEntries ts).filter (fun p => p.revenue == rq)).length := by
    have hperm : List.Perm (sortedProducts ts) (productEntries ts) :=
      List.mergeSort_perm _ _
    exact (hperm.filter _).length_eq
  exact (hsub2.eq_of_length hlen.symm).symm

/-- C5: `topProducts` has at most 5 entries, is the 5-element prefix of
the stable descending sort by revenue, is sorted descending, each entry
carries the sums of `quantity` and `total` over every line item with
its product id, and entries with equal revenue keep their original
insertion order (stable sort). -/
theorem c5_topProducts (ts : List Transaction) :
    (topProducts ts).length ≤ 5 ∧
    topProducts ts = (sortedProducts ts).take 5 ∧
    (topProducts ts).Pairwise (fun a b => b.revenue ≤ a.revenue) ∧
    (∀ p ∈ topProducts ts,
      p.quantity = (((allItems ts).filter (fun it => it.productId == p.id)).map
        SaleItem.quantity).sum ∧
      p.revenue = (((allItems ts).filter (fun it => it.productId == p.id)).map
        SaleItem.total).sum) ∧
    (∀ rq : ℚ, (sortedProducts ts).filter (fun p => p.revenue == rq) =
      (productEntries ts).filter (fun p => p.revenue == rq)) := by
  refine ⟨?_, rfl, ?_, ?_, fun rq => sortedProducts_stable ts rq⟩
  · unfold topProducts
    rw [List.length_take]
    omega
  · exact List.Pairwise.sublist (List.take_sublist _ _) (sortedProducts_pairwise ts)
  · intro p hp
    have hp1 : p ∈ sortedProducts ts := List.mem_of_mem_take hp
    have hp2 : p ∈ productEntries ts := by
      unfold sortedProducts at hp1
      exact List.mem_mergeSort.mp hp1
    obtain ⟨pair, hpair, rfl⟩ := List.mem_map.mp hp2
    have hget := mapGet_of_mem _ _ _ hpair (productSales_keys_nodup ts)
    have hps := productSales_eq_flat ts
    have h0 : mapGet ([] : List (String × ProductAcc)) pair.1 = none := rfl
    constructor
    · have hq := qtyAt_foldl (allItems ts) [] pair.1
      rw [← hps] at hq
      unfold qtyAt at hq
      rw [hget, h0] at hq
      simpa using hq
    · have hr := revAt_foldl (allItems ts) [] pair.1
      rw [← hps] at hr
      unfold revAt at hr
      rw [hget, h0] at hr
      simpa using hr

unseal Rat.mul Rat.inv Rat.add Rat.sub in
/-- Witness for C5 on the two-transaction product scenario: product A
sums to quantity 3 and revenue 60 across both transactions, and the
revenue-10 tie between B and C keeps insertion order. -/
theorem c5_topProducts_witness :
    (⟨"A", "Alpha", 60, 3⟩ : TopProduct) ∈ topProducts productScenario ∧
    (⟨"A", "Alpha", 60, 3⟩ : TopProduct).quantity =
      (((allItems productScenario).filter
        (fun it => it.productId == (⟨"A", "Alpha", 60, 3⟩ : TopProduct).id)).map
        SaleItem.quantity).sum ∧
    (⟨"A", "Alpha", 60, 3⟩ : TopProduct).revenue =
      (((allItems productScenario).filter
        (fun it => it.productId == (⟨"A", "Alpha", 60, 3⟩ : TopProduct).id)).map
        SaleItem.total).sum ∧
    (sortedProducts productScenario).filter (fun p => p.revenue == (10 : ℚ)) =
      (productEntries productScenario).filter (fun p => p.revenue == (10 : ℚ)) ∧
    (topProducts productScenario).length ≤ 5 := by
  have hmemA : (⟨"A", "Alpha", 60, 3⟩ : TopProduct) ∈ topProducts productScenario := by
    unfold topProducts
    rw [List.take_of_length_le]
    · unfold sortedProducts
      rw [List.mem_mergeSort]
      decide
    · unfold sortedProducts
      rw [List.length_mergeSort]
      decide
  exact ⟨hmemA,
    ((c5_topProducts productScenario).2.2.2.1 _ hmemA).1,
    ((c5_topProducts productScenario).2.2.2.1 _ hmemA).2,
    (c5_topProducts productScenario).2.2.2.2 10,
    (c5_topProducts productScenario).1⟩

end Sales

namespace Sales

/-! Unknown-timeframe behaviour (C9) and the custom 10-day range (C8). -/

theorem applyTransaction_nil (tf : Option String) (r : DRange) (t : Transaction) :
    applyTransaction tf r [] t = [] := rfl

theorem fillBuckets_nil (tf : Option String) (r : DRange) (ts : List Transaction) :
    fillBuckets tf r [] ts = [] := by
  induction ts with
  | nil => rfl
  | cons t ts ih =>
    have h : fillBuckets tf r [] (t :: ts) = fillBuckets tf r (applyTransaction tf r [] t) ts := rfl
    rw [h, applyTransaction_nil]
    exact ih

/-- A non-null, non-empty timeframe string outside the four names keeps
the `Today` metrics window but produces no trend buckets, so the
`salesTrend` output is empty. -/
theorem c9_unknown_timeframe (tf : String) (now : DateTime) (r : DRange)
    (ts : List Transaction) (h0 : tf ≠ "") (h1 : tf ≠ "Today") (h2 : tf ≠ "Week")
    (h3 : tf ≠ "Month") (h4 : tf ≠ "Year") :
    getDateRange tf now = getDateRange "Today" now ∧
    generateTrendDataPoints (some tf) r now = [] ∧
    salesTrendOf (some tf) r ts now = [] := by
  have hgen : generateTrendDataPoints (some tf) r now = [] := by
    unfold generateTrendDataPoints
    simp only [Option.getD_some]
    rw [if_neg h0]
    rw [if_neg h1, if_neg h2, if_neg h3, if_neg h4]
  refine ⟨?_, hgen, ?_⟩
  · unfold getDateRange
    rw [if_neg h1, if_neg h2, if_neg h3, if_neg h4, if_pos rfl]
  · unfold salesTrendOf
    rw [hgen, fillBuckets_nil]
    rfl

/-- Witness for the amended C9 at the unknown timeframe `Quarter`. -/
theorem c9_unknown_timeframe_witness :
    getDateRange "Quarter" sampleNow = getDateRange "Today" sampleNow ∧
    generateTrendDataPoints (some "Quarter") (getDateRange "Quarter" sampleNow)
      sampleNow = [] ∧
    salesTrendOf (some "Quarter") (getDateRange "Quarter" sampleNow)
      todayScenario sampleNow = [] :=
  c9_unknown_timeframe "Quarter" sampleNow (getDateRange "Quarter" sampleNow)
    todayScenario (by decide) (by decide) (by decide) (by decide) (by decide)

/-- Counterexample to C9 as stated: the empty string is a non-null
timeframe outside the four names (the GET handler resolves the metrics
window as `Today` since `"" || 'Today'` is `'Today'`), yet the bucket
generator takes the falsy custom-range branch and returns 24 hourly
buckets, not the empty list. -/
theorem c9_empty_string_counterexample :
    ("" ≠ "Today" ∧ "" ≠ "Week" ∧ "" ≠ "Month" ∧ "" ≠ "Year") ∧
    generateTrendDataPoints (some "") (getDateRange "Today" sampleNow) sampleNow ≠ [] ∧
    (generateTrendDataPoints (some "") (getDateRange "Today" sampleNow)
      sampleNow).length = 24 := by
  decide

theorem daysDiffOf_ten_days (r : DRange) (hs : Valid r.start) (he : Valid r.end_)
    (hdn : dayNumber r.end_ = dayNumber r.start + 9) :
    1 < daysDiffOf r ∧ daysDiffOf r ≤ 31 := by
  have h1 : toMillis r.end_ = dayNumber r.end_ * 86400000 + timeOfDayMs r.end_ := rfl
  have h2 : toMillis r.start = dayNumber r.start * 86400000 + timeOfDayMs r.start := rfl
  have h3 := timeOfDayMs_lt r.end_ he
  have h4 := timeOfDayMs_lt r.start hs
  unfold daysDiffOf
  rw [Int.fdiv_eq_ediv _ (by omega)]
  omega

/-- C8: a custom explicit range spanning 10 calendar days selects the
daily branch and yields one bucket per calendar day - exactly 10. -/
theorem c8_ten_day_custom_range (r : DRange) (now : DateTime)
    (hs : Valid r.start) (he : Valid r.end_)
    (hdn : dayNumber r.end_ = dayNumber r.start + 9) :
    generateTrendDataPoints none r now =
      (eachDayOfInterval r.start r.end_).map (fun date =>
        { name := monthAbbrev date.month ++ " " ++ pad2 date.day,
          timestamp := date, value := 0 }) ∧
    (generateTrendDataPoints none r now).length = 10 := by
  obtain ⟨hgt, hle⟩ := daysDiffOf_ten_days r hs he hdn
  have hbranch : generateTrendDataPoints none r now =
      (eachDayOfInterval r.start r.end_).map (fun date =>
        { name := monthAbbrev date.month ++ " " ++ pad2 date.day,
          timestamp := date, value := 0 }) := by
    unfold generateTrendDataPoints
    simp only [Option.getD_none, if_true]
    rw [if_neg (show ¬daysDiffOf r ≤ 1 by omega), if_pos hle]
  refine ⟨hbranch, ?_⟩
  rw [hbranch]
  unfold eachDayOfInterval
  rw [List.length_map, List.length_map, List.length_range]
  omega

/-- Witness for C8 on the concrete window 2025-06-01 .. 2025-06-10. -/
theorem c8_ten_day_custom_range_witness :
    generateTrendDataPoints none tenDayRange sampleNow =
      (eachDayOfInterval tenDayRange.start tenDayRange.end_).map (fun date =>
        { name := monthAbbrev date.month ++ " " ++ pad2 date.day,
          timestamp := date, value := 0 }) ∧
    (generateTrendDataPoints none tenDayRange sampleNow).length = 10 :=
  c8_ten_day_custom_range tenDayRange sampleNow (by decide) (by decide) (by decide)

end Sales

namespace Sales

/-! Bucket-generation facts per named timeframe (C1). -/

theorem valid_startOfDay (d : DateTime) (h : Valid d) : Valid (startOfDay d) := by
  obtain ⟨h1, h2, h3, h4, h5, -⟩ := h
  unfold startOfDay
  refine ⟨?_, ?_, ?_, ?_, ?_, ?_, ?_, ?_, ?_⟩ <;> (try dsimp only) <;> omega

theorem valid_endOfMonth (d : DateTime) (h : Valid d) : Valid (endOfMonth d) := by
  obtain ⟨h1, h2, h3, h4, h5, -⟩ := h
  have hp := daysInMonth_pos d.year d.month
  unfold endOfMonth
  refine ⟨?_, ?_, ?_, ?_, ?_, ?_, ?_, ?_, ?_⟩ <;> (try dsimp only) <;> omega

theorem today_buckets (r : DRange) (now : DateTime) :
    (generateTrendDataPoints (some "Today") r now).length = 24 ∧
    (generateTrendDataPoints (some "Today") r now).map Bucket.name =
      (List.range 24).map (fun i => toString i ++ ":00") ∧
    StrictIncreasingMs (generateTrendDataPoints (some "Today") r now) ∧
    MutuallyExclusive (some "Today") r
      (generateTrendDataPoints (some "Today") r now) := by
  have hg : generateTrendDataPoints (some "Today") r now =
      (List.range 24).map (fun i =>
        { name := toString i ++ ":00", timestamp := setHours r.start i, value := 0 }) := rfl
  have hbm : ∀ t p, bucketMatch (some "Today") r t p = (t.hour == p.hour) :=
    fun t p => rfl
  refine ⟨?_, ?_, ?_, ?_⟩
  · rw [hg]
    simp
  · rw [hg, List.map_map]
    rfl
  · rw [hg]
    unfold StrictIncreasingMs
    rw [List.map_map]
    refine List.pairwise_map.mpr ?_
    refine (List.pairwise_lt_range 24).imp ?_
    intro i j hij
    show toMillis (setHours r.start i) < toMillis (setHours r.start j)
    unfold toMillis setHours dayNumber timeOfDayMs
    dsimp only
    omega
  · rw [hg]
    unfold MutuallyExclusive
    refine List.pairwise_map.mpr ?_
    refine (List.pairwise_lt_range 24).imp ?_
    intro i j hij t hcontra
    obtain ⟨hm1, hm2⟩ := hcontra
    rw [hbm] at hm1 hm2
    have e1 : t.hour = i := eq_of_beq hm1
    have e2 : t.hour = j := eq_of_beq hm2
    omega

theorem week_buckets (now : DateTime) (h : Valid now) (hy : 3 ≤ now.year) :
    (generateTrendDataPoints (some "Week") (getDateRange "Week" now) now).length = 7 ∧
    StrictIncreasingMs
      (generateTrendDataPoints (some "Week") (getDateRange "Week" now) now) ∧
    MutuallyExclusive (some "Week") (getDateRange "Week" now)
      (generateTrendDataPoints (some "Week") (getDateRange "Week" now) now) := by
  have hg : generateTrendDataPoints (some "Week") (getDateRange "Week" now) now =
      (eachDayOfInterval (startOfWeek now) (endOfWeek now)).map (fun date =>
        { name := weekdayAbbrev (dayOfWeek date), timestamp := date, value := 0 }) := rfl
  have hbm : ∀ t p, bucketMatch (some "Week") (getDateRange "Week" now) t p =
      isSameDay t p := fun t p => rfl
  have hdow : dayOfWeek now ≤ 6 := by
    unfold dayOfWeek
    omega
  have hdb : 730 ≤ dayNumber now := by
    have h3 : daysBeforeYear 3 ≤ daysBeforeYear now.year := by
      rcases Nat.eq_or_lt_of_le hy with he | hl
      · rw [← he]
      · exact le_of_lt (daysBeforeYear_strict 3 now.year (by omega) hl)
    have h730 : daysBeforeYear 3 = 730 := rfl
    unfold dayNumber
    omega
  obtain ⟨hsv, hsd, -⟩ := subDays_spec now (dayOfWeek now) h (by omega)
  have hswv : Valid (startOfWeek now) := valid_startOfDay _ hsv
  have hswd : dayNumber (startOfWeek now) + dayOfWeek now = dayNumber now := by
    unfold startOfWeek
    have he : dayNumber (startOfDay (subDays now (dayOfWeek now))) =
        dayNumber (subDays now (dayOfWeek now)) := rfl
    omega
  obtain ⟨hav, had, -⟩ := addDays_spec now (6 - dayOfWeek now) h
  have hewd : dayNumber (endOfWeek now) = dayNumber now + (6 - dayOfWeek now) := by
    unfold endOfWeek
    have he : dayNumber (endOfDay (addDays now (6 - dayOfWeek now))) =
        dayNumber (addDays now (6 - dayOfWeek now)) := rfl
    omega
  have hbase : startOfDay (startOfWeek now) = startOfWeek now := rfl
  have hcount : dayNumber (endOfWeek now) + 1 - dayNumber (startOfWeek now) = 7 := by
    omega
  have hedi : eachDayOfInterval (startOfWeek now) (endOfWeek now) =
      (List.range 7).map (fun i => addDays (startOfWeek now) i) := by
    unfold eachDayOfInterval
    rw [hcount, hbase]
  refine ⟨?_, ?_, ?_⟩
  · rw [hg, hedi]
    simp
  · rw [hg, hedi]
    unfold StrictIncreasingMs
    rw [List.map_map, List.map_map]
    refine List.pairwise_map.mpr ?_
    refine (List.pairwise_lt_range 7).imp ?_
    intro i j hij
    obtain ⟨hvi, hdi, -⟩ := addDays_spec (startOfWeek now) i hswv
    obtain ⟨hvj, hdj, -⟩ := addDays_spec (startOfWeek now) j hswv
    show toMillis (addDays (startOfWeek now) i) < toMillis (addDays (startOfWeek now) j)
    apply toMillis_lt_of_dayNumber_lt _ _ hvi
    omega
  · rw [hg, hedi]
    unfold MutuallyExclusive
    rw [List.map_map]
    refine List.pairwise_map.mpr ?_
    refine (List.pairwise_lt_range 7).imp ?_
    intro i j hij t hcontra
    obtain ⟨hm1, hm2⟩ := hcontra
    rw [hbm] at hm1 hm2
    simp only [Function.comp, isSameDay, Bool.and_eq_true, beq_iff_eq] at hm1 hm2
    obtain ⟨⟨hy1, hmn1⟩, hd1⟩ := hm1
    obtain ⟨⟨hy2, hmn2⟩, hd2⟩ := hm2
    obtain ⟨hvi, hdi, -⟩ := addDays_spec (startOfWeek now) i hswv
    obtain ⟨hvj, hdj, -⟩ := addDays_spec (startOfWeek now) j hswv
    have heq : dayNumber (addDays (startOfWeek now) i) =
        dayNumber (addDays (startOfWeek now) j) := by
      unfold dayNumber
      rw [← hy1, ← hmn1, ← hd1, hy2, hmn2, hd2]
    omega

end Sales

namespace Sales

theorem month_buckets (now : DateTime) (h : Valid now) (hy : 3 ≤ now.year) :
    (generateTrendDataPoints (some "Month") (getDateRange "Month" now) now).length = 12 ∧
    StrictIncreasingMs
      (generateTrendDataPoints (some "Month") (getDateRange "Month" now) now) ∧
    MutuallyExclusive (some "Month") (getDateRange "Month" now)
      (generateTrendDataPoints (some "Month") (getDateRange "Month" now) now) := by
  have hg : generateTrendDataPoints (some "Month") (getDateRange "Month" now) now =
      (List.range 12).map (fun i =>
        { name := monthAbbrev (addMonths (subMonths (endOfMonth now) 11) i).month,
          timestamp := addMonths (subMonths (endOfMonth now) 11) i, value := 0 }) := rfl
  have hbm : ∀ t p, bucketMatch (some "Month") (getDateRange "Month" now) t p =
      isSameMonth t p := fun t p => rfl
  have hvem : Valid (endOfMonth now) := valid_endOfMonth now h
  have hmi : 36 ≤ monthIndex now := by
    unfold monthIndex
    omega
  have hmem : monthIndex (endOfMonth now) = monthIndex now := rfl
  have hinner : subMonths (endOfMonth now) 11 =
      setMonthIndex (endOfMonth now) (monthIndex now - 11) := rfl
  have hivalid : Valid (subMonths (endOfMonth now) 11) := by
    rw [hinner]
    exact valid_setMonthIndex _ _ hvem (by omega)
  have himi : monthIndex (subMonths (endOfMonth now) 11) = monthIndex now - 11 := by
    rw [hinner]
    exact monthIndex_setMonthIndex _ _
  have hti : ∀ i : Nat, monthIndex (addMonths (subMonths (endOfMonth now) 11) i) =
      monthIndex now - 11 + i := by
    intro i
    unfold addMonths
    rw [monthIndex_setMonthIndex, himi]
  have htv : ∀ i : Nat, Valid (addMonths (subMonths (endOfMonth now) 11) i) := by
    intro i
    unfold addMonths
    refine valid_setMonthIndex _ _ hivalid ?_
    rw [himi]
    omega
  refine ⟨?_, ?_, ?_⟩
  · rw [hg]
    simp
  · rw [hg]
    unfold StrictIncreasingMs
    refine List.pairwise_map.mpr ?_
    refine List.pairwise_map.mpr ?_
    refine (List.pairwise_lt_range 12).imp ?_
    intro i j hij
    refine toMillis_lt_of_monthIndex_lt _ _ (htv i) (htv j) ?_ ?_
    · rw [hti i]
      omega
    · rw [hti i, hti j]
      omega
  · rw [hg]
    unfold MutuallyExclusive
    refine List.pairwise_map.mpr ?_
    refine (List.pairwise_lt_range 12).imp ?_
    intro i j hij t hcontra
    obtain ⟨hm1, hm2⟩ := hcontra
    rw [hbm] at hm1 hm2
    simp only [isSameMonth, Bool.and_eq_true, beq_iff_eq] at hm1 hm2
    obtain ⟨hy1, hmn1⟩ := hm1
    obtain ⟨hy2, hmn2⟩ := hm2
    have heq : monthIndex (addMonths (subMonths (endOfMonth now) 11) i) =
        monthIndex (addMonths (subMonths (endOfMonth now) 11) j) := by
      unfold monthIndex
      rw [← hy1, ← hmn1, hy2, hmn2]
    rw [hti i, hti j] at heq
    omega

set_option maxRecDepth 4000 in
theorem year_buckets (now : DateTime) (_h : Valid now) (hy : 3 ≤ now.year) :
    (generateTrendDataPoints (some "Year") (getDateRange "Year" now) now).length ≤ 3 ∧
    StrictIncreasingMs
      (generateTrendDataPoints (some "Year") (getDateRange "Year" now) now) ∧
    MutuallyExclusive (some "Year") (getDateRange "Year" now)
      (generateTrendDataPoints (some "Year") (getDateRange "Year" now) now) := by
  have hg : generateTrendDataPoints (some "Year") (getDateRange "Year" now) now =
      (List.range 3).filterMap (fun i =>
        if now.year - 2 + i ≤ now.year then
          some { name := toString (now.year - 2 + i),
                 timestamp := ⟨now.year - 2 + i, 1, 1, 0, 0, 0, 0⟩, value := 0 }
        else none) := rfl
  have hbm : ∀ t p, bucketMatch (some "Year") (getDateRange "Year" now) t p =
      (t.year == p.year) := fun t p => rfl
  have hexp : generateTrendDataPoints (some "Year") (getDateRange "Year" now) now =
      [⟨toString (now.year - 2 + 0), ⟨now.year - 2 + 0, 1, 1, 0, 0, 0, 0⟩, 0⟩,
       ⟨toString (now.year - 2 + 1), ⟨now.year - 2 + 1, 1, 1, 0, 0, 0, 0⟩, 0⟩,
       ⟨toString (now.year - 2 + 2), ⟨now.year - 2 + 2, 1, 1, 0, 0, 0, 0⟩, 0⟩] := by
    rw [hg, show List.range 3 = [0, 1, 2] from rfl]
    simp only [List.filterMap_cons, List.filterMap_nil]
    rw [if_pos (show now.year - 2 + 0 ≤ now.year by omega),
      if_pos (show now.year - 2 + 1 ≤ now.year by omega),
      if_pos (show now.year - 2 + 2 ≤ now.year by omega)]
  have hdim1 : ∀ y : Nat, daysInMonth y 1 = 31 := fun y => rfl
  have hvjan : ∀ y : Nat, 1 ≤ y → Valid (⟨y, 1, 1, 0, 0, 0, 0⟩ : DateTime) := by
    intro y hy1
    have hd := hdim1 y
    refine ⟨?_, ?_, ?_, ?_, ?_, ?_, ?_, ?_, ?_⟩ <;> (try dsimp only) <;> omega
  have hdnj : ∀ y : Nat, dayNumber (⟨y, 1, 1, 0, 0, 0, 0⟩ : DateTime) =
      daysBeforeYear y := fun y => rfl
  have hlt : ∀ a b : Nat, 1 ≤ a → a < b →
      toMillis (⟨a, 1, 1, 0, 0, 0, 0⟩ : DateTime) <
        toMillis (⟨b, 1, 1, 0, 0, 0, 0⟩ : DateTime) := by
    intro a b ha hab
    refine toMillis_lt_of_dayNumber_lt _ _ (hvjan a ha) ?_
    rw [hdnj a, hdnj b]
    exact daysBeforeYear_strict a b ha hab
  refine ⟨?_, ?_, ?_⟩
  · rw [hexp]
    simp
  · rw [hexp]
    unfold StrictIncreasingMs
    simp only [List.map_cons, List.map_nil]
    refine List.Pairwise.cons ?_ (List.Pairwise.cons ?_
      (List.Pairwise.cons ?_ List.Pairwise.nil))
    · intro x hx
      rcases List.mem_cons.mp hx with h1 | hx
      · rw [h1]
        exact hlt _ _ (by omega) (by omega)
      · rcases List.mem_cons.mp hx with h2 | hx
        · rw [h2]
          exact hlt _ _ (by omega) (by omega)
        · cases hx
    · intro x hx
      rcases List.mem_cons.mp hx with h1 | hx
      · rw [h1]
        exact hlt _ _ (by omega) (by omega)
      · cases hx
    · intro x hx
      cases hx
  · rw [hexp]
    unfold MutuallyExclusive
    have hne : ∀ (a b : Nat), a ≠ b → ∀ t : DateTime,
        ¬(bucketMatch (some "Year") (getDateRange "Year" now) t
            (⟨a, 1, 1, 0, 0, 0, 0⟩ : DateTime) = true ∧
          bucketMatch (some "Year") (getDateRange "Year" now) t
            (⟨b, 1, 1, 0, 0, 0, 0⟩ : DateTime) = true) := by
      intro a b hab t hcontra
      obtain ⟨hm1, hm2⟩ := hcontra
      rw [hbm] at hm1 hm2
      have e1 : t.year = a := eq_of_beq hm1
      have e2 : t.year = b := eq_of_beq hm2
      omega
    refine List.Pairwise.cons ?_ (List.Pairwise.cons ?_
      (List.Pairwise.cons ?_ List.Pairwise.nil))
    · intro x hx
      rcases List.mem_cons.mp hx with h1 | hx
      · rw [h1]
        exact hne _ _ (by omega)
      · rcases List.mem_cons.mp hx with h2 | hx
        · rw [h2]
          exact hne _ _ (by omega)
        · cases hx
    · intro x hx
      rcases List.mem_cons.mp hx with h1 | hx
      · rw [h1]
        exact hne _ _ (by omega)
      · cases hx
    · intro x hx
      cases hx

end Sales

namespace Sales

/-- C1: for each named timeframe the bucket generator returns the
documented count on its resolved window (Today: 24 hourly buckets
labeled `H:00`; Week: 7 daily buckets; Month: exactly 12 monthly
buckets; Year: at most 3 yearly buckets), with strictly increasing
epoch-millisecond timestamps, and no transaction instant can match two
distinct buckets under that granularity's fill predicate. -/
theorem c1_bucket_generation (now : DateTime) (h : Valid now) (hy : 3 ≤ now.year) :
    ((generateTrendDataPoints (some "Today") (getDateRange "Today" now) now).length = 24 ∧
     (generateTrendDataPoints (some "Today") (getDateRange "Today" now) now).map
       Bucket.name = (List.range 24).map (fun i => toString i ++ ":00") ∧
     StrictIncreasingMs
       (generateTrendDataPoints (some "Today") (getDateRange "Today" now) now) ∧
     MutuallyExclusive (some "Today") (getDateRange "Today" now)
       (generateTrendDataPoints (some "Today") (getDateRange "Today" now) now)) ∧
    ((generateTrendDataPoints (some "Week") (getDateRange "Week" now) now).length = 7 ∧
     StrictIncreasingMs
       (generateTrendDataPoints (some "Week") (getDateRange "Week" now) now) ∧
     MutuallyExclusive (some "Week") (getDateRange "Week" now)
       (generateTrendDataPoints (some "Week") (getDateRange "Week" now) now)) ∧
    ((generateTrendDataPoints (some "Month") (getDateRange "Month" now) now).length = 12 ∧
     StrictIncreasingMs
       (generateTrendDataPoints (some "Month") (getDateRange "Month" now) now) ∧
     MutuallyExclusive (some "Month") (getDateRange "Month" now)
       (generateTrendDataPoints (some "Month") (getDateRange "Month" now) now)) ∧
    ((generateTrendDataPoints (some "Year") (getDateRange "Year" now) now).length ≤ 3 ∧
     StrictIncreasingMs
       (generateTrendDataPoints (some "Year") (getDateRange "Year" now) now) ∧
     MutuallyExclusive (some "Year") (getDateRange "Year" now)
       (generateTrendDataPoints (some "Year") (getDateRange "Year" now) now)) :=
  ⟨today_buckets (getDateRange "Today" now) now, week_buckets now h hy,
   month_buckets now h hy, year_buckets now h hy⟩

/-- Witness for C1 at the concrete instant 2025-06-15T12:00. -/
theorem c1_bucket_generation_witness :
    Valid sampleNow ∧ 3 ≤ sampleNow.year ∧
    (((generateTrendDataPoints (some "Today") (getDateRange "Today" sampleNow)
        sampleNow).length = 24 ∧
      (generateTrendDataPoints (some "Today") (getDateRange "Today" sampleNow)
        sampleNow).map Bucket.name =
        (List.range 24).map (fun i => toString i ++ ":00") ∧
      StrictIncreasingMs (generateTrendDataPoints (some "Today")
        (getDateRange "Today" sampleNow) sampleNow) ∧
      MutuallyExclusive (some "Today") (getDateRange "Today" sampleNow)
        (generateTrendDataPoints (some "Today") (getDateRange "Today" sampleNow)
          sampleNow)) ∧
     ((generateTrendDataPoints (some "Week") (getDateRange "Week" sampleNow)
        sampleNow).length = 7 ∧
      StrictIncreasingMs (generateTrendDataPoints (some "Week")
        (getDateRange "Week" sampleNow) sampleNow) ∧
      MutuallyExclusive (some "Week") (getDateRange "Week" sampleNow)
        (generateTrendDataPoints (some "Week") (getDateRange "Week" sampleNow)
          sampleNow)) ∧
     ((generateTrendDataPoints (some "Month") (getDateRange "Month" sampleNow)
        sampleNow).length = 12 ∧
      StrictIncreasingMs (generateTrendDataPoints (some "Month")
        (getDateRange "Month" sampleNow) sampleNow) ∧
      MutuallyExclusive (some "Month") (getDateRange "Month" sampleNow)
        (generateTrendDataPoints (some "Month") (getDateRange "Month" sampleNow)
          sampleNow)) ∧
     ((generateTrendDataPoints (some "Year") (getDateRange "Year" sampleNow)
        sampleNow).length ≤ 3 ∧
      StrictIncreasingMs (generateTrendDataPoints (some "Year")
        (getDateRange "Year" sampleNow) sampleNow) ∧
      MutuallyExclusive (some "Year") (getDateRange "Year" sampleNow)
        (generateTrendDataPoints (some "Year") (getDateRange "Year" sampleNow)
          sampleNow))) :=
  ⟨by decide, by decide, c1_bucket_generation sampleNow (by decide) (by decide)⟩

end Sales
